import Mathlib

/-!
Verification development for the spaint sources: the OpenCV visualisation
utility (`OpenCVUtil.h`), the collaborative pose optimiser
(`CollaborativePoseOptimiser.h`) and the score-forest relocalisation component
(`SLAMComponentWithScoreForest.cpp`).

Numeric conventions: C++ `float` quantities are embedded as exact rationals
(`ℚ`); Euclidean-distance comparisons from the source are carried out on
squared distances (the source compares `length(a-b)` against a constant, which
is equivalent to comparing the squared length against the squared constant);
the transcendental `log10f` is embedded over `ℝ` where its value matters and
kept abstract elsewhere.
-/

/-! ### OpenCVUtil (modules/itmx/include/itmx/ocv/OpenCVUtil.h) -/

/-- The two memory orders accepted by `OpenCVUtil::make_greyscale_image`
(`OpenCVUtil.h`, lines 27-31). -/
inductive MemOrder where
  | COL_MAJOR
  | ROW_MAJOR
deriving DecidableEq

/-- `OpenCVUtil::clamp_pixel_value` (`OpenCVUtil.h`, lines 300-306): clamp to
`[0,255]` and convert to an unsigned char (truncation toward zero; after the
clamp the value is non-negative, so this is the floor). -/
def clamp_pixel_value (pixelValue : ℚ) : ℕ :=
  let v1 := if pixelValue < 0 then 0 else pixelValue
  let v2 := if v1 > 255 then 255 else v1
  v2.floor.toNat

/-- `OpenCVUtil::make_greyscale_image` (`OpenCVUtil.h`, lines 157-183). The
output bytes are produced sequentially; output linear index `k` corresponds to
`x = k % width`, `y = k / width` of the nested column-major loops, which read
the input at `x * height + y`. -/
def make_greyscale_image (inputData : ℕ → ℚ) (width height : ℕ) (order : MemOrder)
    (scaleFunc : ℚ → ℚ) : List ℕ :=
  match order with
  | .ROW_MAJOR =>
      (List.range (width * height)).map fun i => clamp_pixel_value (scaleFunc (inputData i))
  | .COL_MAJOR =>
      (List.range (width * height)).map fun k =>
        clamp_pixel_value (scaleFunc (inputData ((k % width) * height + (k / width))))

/-- The fields of `OpenCVUtil::ScaleDataToRange` (`OpenCVUtil.h`, lines 67-110). -/
structure ScaleDataToRange where
  m_minInputValue : ℚ
  m_minOutputValue : ℚ
  m_scalingFactor : ℚ
deriving DecidableEq

/-- `*std::max_element(inputData, inputDataEnd)` over the input buffer, embedded
as a fold (undefined on an empty buffer in the source; here the `headD 0`
initialiser is only meaningful for non-empty input). -/
def maxElement (inputData : List ℚ) : ℚ :=
  inputData.foldl max (inputData.headD 0)

/-- `*std::min_element(inputData, inputDataEnd)` over the input buffer. -/
def minElement (inputData : List ℚ) : ℚ :=
  inputData.foldl min (inputData.headD 0)

/-- The `ScaleDataToRange` constructor (`OpenCVUtil.h`, lines 91-98): derive the
input range from the data and set
`scalingFactor = (maxOutputValue - minOutputValue) / (maxInputValue - minInputValue)`.
The division is embedded as total rational division (division by zero yields 0
in Lean; the all-equal-input case is characterised separately by the zero
denominator). -/
def makeScaleDataToRange (inputData : List ℚ) (minOutputValue maxOutputValue : ℚ) :
    ScaleDataToRange :=
  let maxInputValue := maxElement inputData
  let minInputValue := minElement inputData
  { m_minInputValue := minInputValue
    m_minOutputValue := minOutputValue
    m_scalingFactor := (maxOutputValue - minOutputValue) / (maxInputValue - minInputValue) }

/-- `ScaleDataToRange::operator()` (`OpenCVUtil.h`, lines 106-109). -/
def scaleApply (s : ScaleDataToRange) (inputValue : ℚ) : ℚ :=
  s.m_minOutputValue + (inputValue - s.m_minInputValue) * s.m_scalingFactor

/-! ### CollaborativePoseOptimiser (modules/spaint/include/spaint/collaboration/CollaborativePoseOptimiser.h)

The header is the available source; the implementation file is not part of the
provided sources, so the behaviour of the private helper
`add_relative_transform_sample_sub` and of the clustering is modelled from the
spec (incremental single-linkage clustering with an undisclosed closeness
predicate and an undisclosed confidence threshold, both kept abstract as
parameters). The public `add_relative_transform_sample` is declared in the
header (lines 93-104) with return type `void`; per the header's note it also
adds the inverse sample for the swapped scene pair. -/

/-- The optimiser state visible to `add_relative_transform_sample`: the set of
known scene IDs, the per-scene-pair cluster collections (each cluster is a
representative sample plus the other samples assigned to it, so clusters are
never empty), and the samples-changed flag. -/
structure CPOState (P : Type) where
  sceneIDs : List String
  relativeTransformSamples : List ((String × String) × List (P × List P))
  relativeTransformSamplesChanged : Bool

/-- Look up the cluster collection stored for a scene-ID pair. -/
def lookupSamples {P : Type} (st : CPOState P) (key : String × String) :
    Option (List (P × List P)) :=
  (st.relativeTransformSamples.find? fun e => decide (e.1 = key)).map (fun e => e.2)

/-- Store a cluster collection for a scene-ID pair (replacing an existing entry
or appending a new one). -/
def setSamples {P : Type} (st : CPOState P) (key : String × String)
    (v : List (P × List P)) : List ((String × String) × List (P × List P)) :=
  if (st.relativeTransformSamples.find? fun e => decide (e.1 = key)).isSome then
    st.relativeTransformSamples.map fun e => if e.1 = key then (key, v) else e
  else
    st.relativeTransformSamples ++ [(key, v)]

/-- Register a scene ID in the known-scene set. -/
def insertID (id : String) (ids : List String) : List String :=
  if id ∈ ids then ids else ids ++ [id]

/-- Modelled from the spec: the private
`CollaborativePoseOptimiser::add_relative_transform_sample_sub` (header lines
158-167; its implementation file is not among the provided sources). It
registers the scene IDs, appends the sample to the cluster collection for
`(sceneI, sceneJ)` — to the first existing cluster whose representative pose is
sufficiently close (`near`, the undisclosed closeness predicate), else to a
fresh singleton cluster — marks the state changed, and returns whether the
receiving cluster's new size has reached the confidence threshold (the
undisclosed constant, abstracted as `threshold`). -/
def add_relative_transform_sample_sub {P : Type} (near : P → P → Bool) (threshold : ℕ)
    (st : CPOState P) (sceneI sceneJ : String) (sample : P) : CPOState P × Bool :=
  let key := (sceneI, sceneJ)
  let clusters := (lookupSamples st key).getD []
  let result :=
    match clusters.findIdx? (fun cl => near sample cl.1) with
    | some k =>
      let cl := clusters.getD k (sample, [])
      (clusters.set k (cl.1, cl.2 ++ [sample]), cl.2.length + 2)
    | none => (clusters ++ [(sample, [])], 1)
  let st2 : CPOState P :=
    { sceneIDs := insertID sceneJ (insertID sceneI st.sceneIDs)
      relativeTransformSamples := setSamples st key result.1
      relativeTransformSamplesChanged := true }
  (st2, decide (threshold ≤ result.2))

/-- The public `CollaborativePoseOptimiser::add_relative_transform_sample`
(header lines 93-104): declared `void`, so the embedding returns `Unit` beside
the updated state. Per the header's note, it adds the sample for
`(sceneI, sceneJ)` and the inverse sample for `(sceneJ, sceneI)` (the two
private-helper calls and the discarding of their boolean results are modelled
from the spec, as the implementation file is not among the provided sources). -/
def add_relative_transform_sample {P : Type} (inv : P → P) (near : P → P → Bool)
    (threshold : ℕ) (st : CPOState P) (sceneI sceneJ : String) (sample : P) :
    CPOState P × Unit :=
  let r1 := add_relative_transform_sample_sub near threshold st sceneI sceneJ sample
  let r2 := add_relative_transform_sample_sub near threshold r1.1 sceneJ sceneI (inv sample)
  (r2.1, ())

/-- Iterate the private helper `k` times on the same scene pair with the same
sample (the "repeated mutually consistent samples" scenario of the spec). -/
def iterateAddSub {P : Type} (near : P → P → Bool) (threshold : ℕ)
    (sceneI sceneJ : String) (sample : P) (st : CPOState P) : ℕ → CPOState P
  | 0 => st
  | k + 1 =>
    (add_relative_transform_sample_sub near threshold
      (iterateAddSub near threshold sceneI sceneJ sample st k) sceneI sceneJ sample).1

/-- The empty optimiser state used by concrete instantiations. -/
def cpoEmpty : CPOState ℤ := { sceneIDs := [], relativeTransformSamples := [], relativeTransformSamplesChanged := false }

/-- Concrete closeness predicate for the integer instantiation: exact equality. -/
def nearZ : ℤ → ℤ → Bool := fun a b => decide (a = b)

/-- The state after one public `add_relative_transform_sample` call on the
empty state (used by the C2 counterexample). -/
def cpoAfterOne : CPOState ℤ :=
  (add_relative_transform_sample Int.neg nearZ 2 cpoEmpty "A" "B" 0).1

/-! ### SLAMComponentWithScoreForest (modules/spaint/src/pipelinecomponents/SLAMComponentWithScoreForest.cpp)

Data model. Positions and colours live in the feature/prediction images
computed by the forest backend. A feature's `position` is a 4-vector whose
fourth component (`pw`) is the validity sentinel (`< 0` means invalid); its
colour is compared channelwise against a mode's representative colour. A
prediction holds a mode count and a bounded list of modes. The backend types
come from external libraries; only the fields this component reads are
embedded. -/

structure Vec3 where
  x : ℚ
  y : ℚ
  z : ℚ
deriving DecidableEq

/-- Squared Euclidean distance. The source compares `length(a - b)` (a float
`sqrt`) against non-negative constants; every such comparison is embedded as
the equivalent comparison of `distSq` against the squared constant. -/
def distSq (a b : Vec3) : ℚ :=
  (a.x - b.x) ^ 2 + (a.y - b.y) ^ 2 + (a.z - b.z) ^ 2

/-- The fields of `RGBDPatchFeature` read by this component: the local
camera-space position with its validity component `pw`, and the observed
colour (one integer per channel on the 0-255 scale). -/
structure RGBDPatchFeature where
  px : ℚ
  py : ℚ
  pz : ℚ
  pw : ℚ
  cr : ℤ
  cg : ℤ
  cb : ℤ
deriving DecidableEq

/-- The fields of a forest-prediction mode read by this component: world
position, representative colour, and supporting-inlier count. -/
structure GPUForestMode where
  pos : Vec3
  cr : ℤ
  cg : ℤ
  cb : ℤ
  nbInliers : ℕ
deriving DecidableEq

/-- A per-pixel forest prediction: a mode count (may be 0) and the modes. -/
structure GPUForestPrediction where
  nbModes : ℕ
  modes : List GPUForestMode
deriving DecidableEq

def defaultMode : GPUForestMode := ⟨⟨0, 0, 0⟩, 0, 0, 0, 0⟩

/-- `pred.modes[i]` (the source indexes a fixed-capacity array). -/
def getMode (pred : GPUForestPrediction) (i : ℕ) : GPUForestMode :=
  pred.modes.getD i defaultMode

/-- The state read by the relocaliser's CPU-side RANSAC: the feature image
dimensions and the per-linear-index feature and prediction data. -/
structure RelocState where
  width : ℕ
  height : ℕ
  features : ℕ → RGBDPatchFeature
  predictions : ℕ → GPUForestPrediction

/-- A random engine, embedded as a stream of raw draws and a position. Each
`uniform_int_distribution` call consumes one stream element; a draw with bound
`n` yields a value in `[0, n-1]` (for `n > 0`). Quantifying over all streams
covers every behaviour of the concrete `std::mt19937`. -/
structure RandEng where
  stream : ℕ → ℕ
  pos : ℕ

/-- One bounded uniform draw. -/
def draw (bound : ℕ) (e : RandEng) : ℕ × RandEng :=
  (e.stream e.pos % bound, ⟨e.stream, e.pos + 1⟩)

/-! Tunables fixed in the constructor (`SLAMComponentWithScoreForest.cpp`,
lines 67-84), and the loop bounds of `hypothesize_pose`. -/

def m_nbPointsForKabschBoostrap : ℕ := 3

def m_useAllModesPerLeafInPoseHypothesisGeneration : Bool := true

def m_checkMinDistanceBetweenSampledModes : Bool := true

def m_minDistanceBetweenSampledModes : ℚ := 3 / 10

def m_batchSizeRansac : ℕ := 500

def m_trimKinitAfterFirstEnergyComputation : ℕ := 64

def m_poseUpdate : Bool := false

def maxIterationsOuter : ℕ := 20

def maxIterationsInner : ℕ := 6000

/-- Linear feature-image index of a selected `(x, y, modeIdx)` triple. -/
def linOf (st : RelocState) (s : ℕ × ℕ × ℕ) : ℕ :=
  s.2.1 * st.width + s.1

/-- The 3-vector part of the feature position at a linear index. -/
def featPos3at (st : RelocState) (idx : ℕ) : Vec3 :=
  ⟨(st.features idx).px, (st.features idx).py, (st.features idx).pz⟩

/-- Local camera-space point of a selected triple. -/
def featPosOf (st : RelocState) (s : ℕ × ℕ × ℕ) : Vec3 :=
  featPos3at st (linOf st s)

/-- World position of the mode chosen by a selected triple. -/
def modePosOf (st : RelocState) (s : ℕ × ℕ × ℕ) : Vec3 :=
  (getMode (st.predictions (linOf st s)) s.2.2).pos

/-- The first-pixel colour-consistency check (`SLAMComponentWithScoreForest.cpp`,
lines 563-566). The source stores the channelwise difference in a `Vector3u`
(`colourDiff = featureColour.toUChar() - mode.colour`): each unsigned-char
channel wraps mod 256, so a channel holds `(observed - mode) mod 256 ∈ [0,255]`,
and the subsequent `abs(colourDiff.x)` is the identity on that non-negative
value after integer promotion. The gate therefore accepts a channel exactly
when `(observed - mode) mod 256 ≤ 30`. -/
def colourConsistent (f : RGBDPatchFeature) (m : GPUForestMode) : Bool :=
  decide ((f.cr - m.cr) % 256 ≤ 30) && decide ((f.cg - m.cg) % 256 ≤ 30)
    && decide ((f.cb - m.cb) % 256 ≤ 30)

/-- The minimum-distance check (`SLAMComponentWithScoreForest.cpp`, lines
573-604): the candidate mode's world position must be at distance
`≥ m_minDistanceBetweenSampledModes` from every already-chosen point's mode. -/
def farFromAll (st : RelocState) (sel : List (ℕ × ℕ × ℕ)) (worldPt : Vec3) : Bool :=
  sel.all fun other =>
    !decide (distSq (modePosOf st other) worldPt < m_minDistanceBetweenSampledModes ^ 2)

/-- One iteration of the inner selection loop of `hypothesize_pose`
(`SLAMComponentWithScoreForest.cpp`, lines 532-652): draw a pixel, reject
invalid features and zero-mode predictions, draw a mode
(`m_useAllModesPerLeafInPoseHypothesisGeneration` is true), apply the
first-pixel colour check and the min-distance check
(`m_checkMinDistanceBetweenSampledModes` is true). The rigid-transformation
branch (source lines 609-647) is omitted from the embedding because
`m_checkRigidTransformationConstraint` is the constant `false` set in the
constructor (line 73), making that branch dead code. -/
def trySelect (st : RelocState) (sel : List (ℕ × ℕ × ℕ)) (eng : RandEng) :
    Option (ℕ × ℕ × ℕ) × RandEng :=
  let xe := draw st.width eng
  let ye := draw st.height xe.2
  let linearFeatureIdx := ye.1 * st.width + xe.1
  let selectedFeature := st.features linearFeatureIdx
  if decide (selectedFeature.pw < 0) then (none, ye.2)
  else
    let selectedPrediction := st.predictions linearFeatureIdx
    if decide (selectedPrediction.nbModes = 0) then (none, ye.2)
    else
      let me := if m_useAllModesPerLeafInPoseHypothesisGeneration
        then draw selectedPrediction.nbModes ye.2
        else (0, ye.2)
      if sel.isEmpty && !colourConsistent selectedFeature (getMode selectedPrediction me.1) then
        (none, me.2)
      else if m_checkMinDistanceBetweenSampledModes
          && !farFromAll st sel (getMode selectedPrediction me.1).pos then
        (none, me.2)
      else
        (some (xe.1, ye.1, me.1), me.2)

/-- The inner selection loop (`while size != 3 && iterations < 6000`), with
the remaining iteration budget as fuel. -/
def innerLoop (st : RelocState) : ℕ → List (ℕ × ℕ × ℕ) → RandEng →
    List (ℕ × ℕ × ℕ) × RandEng
  | 0, sel, eng => (sel, eng)
  | n + 1, sel, eng =>
    if sel.length = m_nbPointsForKabschBoostrap then (sel, eng)
    else
      match trySelect st sel eng with
      | (some s, e2) => innerLoop st n (sel ++ [s]) e2
      | (none, e2) => innerLoop st n sel e2

/-- A RANSAC pose candidate (`PoseCandidate`): camera pose, `(linear pixel
index, mode index)` inlier pairs, energy, and identifying index. The pose type
and the energy field type are abstract parameters (the Kabsch solver lives in
an external helper library). -/
structure PoseCandidate (K : Type) (Pose : Type) where
  cameraPose : Pose
  inliers : List (ℕ × ℤ)
  energy : K
  cameraId : ℤ

/-- Build the candidate from the three selected points
(`SLAMComponentWithScoreForest.cpp`, lines 660-696): the pose is the Kabsch
rigid alignment of the local camera-space points to the predicted world
points, the inliers are the chosen `(linearIdx, modeIdx)` pairs, the energy is
0 and the camera id is -1. `kabsch` abstracts `Helpers::Kabsch` (external). -/
def mkCandidate {K Pose : Type} [Zero K] (kabsch : List Vec3 → List Vec3 → Pose)
    (st : RelocState) (sel : List (ℕ × ℕ × ℕ)) : PoseCandidate K Pose :=
  { cameraPose := kabsch (sel.map (featPosOf st)) (sel.map (modePosOf st))
    inliers := sel.map fun s => (linOf st s, (s.2.2 : ℤ))
    energy := 0
    cameraId := -1 }

/-- The outer attempt structure of `hypothesize_pose`
(`SLAMComponentWithScoreForest.cpp`, lines 503-703). The source's outer loop
(`while !foundIsometricMapping && iterationsOuter < 20`) never executes more
than one iteration: a failed inner loop hits the early `return false` at lines
656-658, and a successful one sets `foundIsometricMapping` and then returns
`true`, so the `n + 1` case below has no recursive call. -/
def outerLoop {K Pose : Type} [Zero K] (kabsch : List Vec3 → List Vec3 → Pose)
    (st : RelocState) : ℕ → RandEng → Option (PoseCandidate K Pose)
  | 0, _ => none
  | _ + 1, eng =>
    let r := innerLoop st maxIterationsInner [] eng
    if r.1.length = m_nbPointsForKabschBoostrap then some (mkCandidate kabsch st r.1)
    else none

/-- `SLAMComponentWithScoreForest::hypothesize_pose`: `none` models the
`return false` outcomes. -/
def hypothesize_pose {K Pose : Type} [Zero K] (kabsch : List Vec3 → List Vec3 → Pose)
    (st : RelocState) (eng : RandEng) : Option (PoseCandidate K Pose) :=
  outerLoop kabsch st maxIterationsOuter eng

/-- Modelled from the spec (for comparison with `hypothesize_pose`): "up to 20
outer attempts, each trying up to 6000 random draws" and "Fails (no
hypothesis) if 3 valid points are never found within any outer attempt" — a
failed inner attempt is retried with the advanced engine until the outer
budget runs out. -/
def specHypothesizePose {K Pose : Type} [Zero K] (kabsch : List Vec3 → List Vec3 → Pose)
    (st : RelocState) : ℕ → RandEng → Option (PoseCandidate K Pose)
  | 0, _ => none
  | n + 1, eng =>
    let r := innerLoop st maxIterationsInner [] eng
    if r.1.length = m_nbPointsForKabschBoostrap then some (mkCandidate kabsch st r.1)
    else specHypothesizePose kabsch st n r.2

/-! Batch pixel sampling (`SLAMComponentWithScoreForest::sample_pixels_for_ransac`,
lines 817-876). The already-sampled mask is `Option`al: `none` embeds the
source's empty dummy vector (no masking). -/

def maskOk (mask : Option (ℕ → Bool)) (idx : ℕ) : Bool :=
  match mask with
  | none => true
  | some m => !m idx

def maskSet (mask : Option (ℕ → Bool)) (idx : ℕ) : Option (ℕ → Bool) :=
  match mask with
  | none => none
  | some m => some fun i => if i = idx then true else m i

/-- The inner retry loop of `sample_pixels_for_ransac` (up to 50 tries): a
pixel is accepted iff its feature is valid, its prediction has at least one
mode, and it is not masked. -/
def sampleOnePixel (st : RelocState) : ℕ → Option (ℕ → Bool) → RandEng →
    Option (ℕ × ℕ) × Option (ℕ → Bool) × RandEng
  | 0, mask, eng => (none, mask, eng)
  | n + 1, mask, eng =>
    let xe := draw st.width eng
    let ye := draw st.height xe.2
    let linearIdx := ye.1 * st.width + xe.1
    if decide (0 ≤ (st.features linearIdx).pw)
        && decide (0 < (st.predictions linearIdx).nbModes)
        && maskOk mask linearIdx then
      (some (xe.1, ye.1), maskSet mask linearIdx, ye.2)
    else
      sampleOnePixel st n mask ye.2

/-- `sample_pixels_for_ransac`: collect up to `batchSize` valid pixels; a slot
that fails all 50 tries stops the whole batch (the source logs the shortfall
and `break`s). -/
def sample_pixels_for_ransac (st : RelocState) : ℕ → Option (ℕ → Bool) → RandEng →
    List (ℕ × ℕ) × Option (ℕ → Bool) × RandEng
  | 0, mask, eng => ([], mask, eng)
  | b + 1, mask, eng =>
    let r := sampleOnePixel st 50 mask eng
    match r.1 with
    | none => ([], r.2.1, r.2.2)
    | some s =>
      let rest := sample_pixels_for_ransac st b r.2.1 r.2.2
      (s :: rest.1, rest.2.1, rest.2.2)

/-- `SLAMComponentWithScoreForest::update_inliers_for_optimization` (lines
878-896): append every sampled pixel to every candidate's inlier list with an
unassigned mode index (-1). -/
def update_inliers_for_optimization {K Pose : Type} (st : RelocState)
    (sampledPixelIdx : List (ℕ × ℕ)) (poseCandidates : List (PoseCandidate K Pose)) :
    List (PoseCandidate K Pose) :=
  poseCandidates.map fun c =>
    { c with inliers := c.inliers ++ sampledPixelIdx.map fun s => (s.2 * st.width + s.1, (-1 : ℤ)) }

/-! Energy computation (`SLAMComponentWithScoreForest::compute_pose_energy`,
lines 922-968). The backend query `GPUForestPrediction::get_best_mode_and_energy`
lives in the forest library (not among the provided sources) and its formula is
an open question of the spec; it is abstracted as a `bestMode` parameter
returning the mode index (negative if no mode is valid) and the raw energy.
The transcendental `-log10f` is abstracted as the `neglog` parameter and
instantiated with the real logarithm where its value matters. The two
`throw std::runtime_error` sites are the error outcomes. -/

inductive RelocError where
  | noValidModes
  | modeHasNoInliers
  | notUpdatedYet
deriving DecidableEq

/-- Normalise a mode's raw energy by the prediction's mode count and the
matched mode's inlier count (source lines 959-960). -/
def normalisedModeEnergy (pred : GPUForestPrediction) (argmax : ℕ) (energy : ℚ) : ℚ :=
  energy / (pred.nbModes : ℚ) / ((getMode pred argmax).nbInliers : ℚ)

/-- The `1e-6` energy floor (source lines 962-963). -/
def flooredEnergy (e : ℚ) : ℚ :=
  if e < 1 / 1000000 then 1 / 1000000 else e

/-- The per-inlier body of the energy loop (source lines 933-965): project the
local point through the candidate pose, query the best mode, fail on a
negative mode index or a zero-inlier matched mode, otherwise contribute
`neglog` of the floored normalised energy. -/
def inlierEnergyTerm {K Pose : Type} (neglog : ℚ → K) (applyPose : Pose → Vec3 → Vec3)
    (bestMode : GPUForestPrediction → Vec3 → ℤ × ℚ) (st : RelocState)
    (candidateCameraPose : Pose) (inlier : ℕ × ℤ) : Except RelocError K :=
  let linearIdx := inlier.1
  let localPixel := featPos3at st linearIdx
  let projectedPixel := applyPose candidateCameraPose localPixel
  let pred := st.predictions linearIdx
  let r := bestMode pred projectedPixel
  if decide (r.1 < 0) then .error .noValidModes
  else if decide ((getMode pred r.1.toNat).nbInliers = 0) then .error .modeHasNoInliers
  else .ok (neglog (flooredEnergy (normalisedModeEnergy pred r.1.toNat r.2)))

/-- The accumulation of `totalEnergy` over the inliers (errors propagate). -/
def sumInlierEnergies {K Pose : Type} [LinearOrderedField K] (neglog : ℚ → K)
    (applyPose : Pose → Vec3 → Vec3) (bestMode : GPUForestPrediction → Vec3 → ℤ × ℚ)
    (st : RelocState) (candidateCameraPose : Pose) :
    List (ℕ × ℤ) → Except RelocError K
  | [] => .ok 0
  | i :: rest =>
    match inlierEnergyTerm neglog applyPose bestMode st candidateCameraPose i with
    | .error e => .error e
    | .ok t =>
      match sumInlierEnergies neglog applyPose bestMode st candidateCameraPose rest with
      | .error e => .error e
      | .ok s => .ok (t + s)

/-- `SLAMComponentWithScoreForest::compute_pose_energy`: the accumulated sum
averaged over the inlier count. -/
def compute_pose_energy {K Pose : Type} [LinearOrderedField K] (neglog : ℚ → K)
    (applyPose : Pose → Vec3 → Vec3) (bestMode : GPUForestPrediction → Vec3 → ℤ × ℚ)
    (st : RelocState) (candidateCameraPose : Pose) (inliersIndices : List (ℕ × ℤ)) :
    Except RelocError K :=
  match sumInlierEnergies neglog applyPose bestMode st candidateCameraPose inliersIndices with
  | .error e => .error e
  | .ok total => .ok (total / (inliersIndices.length : K))

/-- `SLAMComponentWithScoreForest::update_candidate_pose` (lines 1116-1232):
the continuous-refinement path is intentionally disabled and its body is
`throw std::runtime_error("not updated yet")` before any other statement. -/
def update_candidate_pose {K Pose : Type} (poseCandidate : PoseCandidate K Pose) :
    Except RelocError Bool :=
  .error .notUpdatedYet

/-- `SLAMComponentWithScoreForest::update_candidate_poses` (lines 970-984):
refine every candidate (errors propagate). -/
def update_candidate_poses {K Pose : Type} :
    List (PoseCandidate K Pose) → Except RelocError (List (PoseCandidate K Pose))
  | [] => .ok []
  | c :: t =>
    match update_candidate_pose c with
    | .error e => .error e
    | .ok _ =>
      match update_candidate_poses t with
      | .error e => .error e
      | .ok rest => .ok (c :: rest)

/-- The per-candidate scoring loop of
`SLAMComponentWithScoreForest::compute_and_sort_energies` (lines 898-920). -/
def scoreCandidates {K Pose : Type} [LinearOrderedField K] (neglog : ℚ → K)
    (applyPose : Pose → Vec3 → Vec3) (bestMode : GPUForestPrediction → Vec3 → ℤ × ℚ)
    (st : RelocState) :
    List (PoseCandidate K Pose) → Except RelocError (List (PoseCandidate K Pose))
  | [] => .ok []
  | c :: t =>
    match compute_pose_energy neglog applyPose bestMode st c.cameraPose c.inliers with
    | .error e => .error e
    | .ok en =>
      match scoreCandidates neglog applyPose bestMode st t with
      | .error e => .error e
      | .ok rest => .ok ({ c with energy := en } :: rest)

/-- `compute_and_sort_energies`: score all candidates, then sort ascending by
energy. -/
def compute_and_sort_energies {K Pose : Type} [LinearOrderedField K] (neglog : ℚ → K)
    (applyPose : Pose → Vec3 → Vec3) (bestMode : GPUForestPrediction → Vec3 → ℤ × ℚ)
    (st : RelocState) (cs : List (PoseCandidate K Pose)) :
    Except RelocError (List (PoseCandidate K Pose)) :=
  match scoreCandidates neglog applyPose bestMode st cs with
  | .error e => .error e
  | .ok scored => .ok (scored.insertionSort fun a b => a.energy ≤ b.energy)

/-- The main preemptive-RANSAC loop of
`SLAMComponentWithScoreForest::estimate_pose` (lines 786-812): while more than
one candidate survives, sample a fresh masked batch, append it as unassigned
inliers to every candidate, optionally refine (`m_poseUpdate` is false),
recompute and sort the energies, and keep the first (lowest-energy)
`size / 2` candidates. -/
def ransacLoop {K Pose : Type} [LinearOrderedField K] (neglog : ℚ → K)
    (applyPose : Pose → Vec3 → Vec3) (bestMode : GPUForestPrediction → Vec3 → ℤ × ℚ)
    (st : RelocState) (cs : List (PoseCandidate K Pose)) (mask : ℕ → Bool) (eng : RandEng) :
    Except RelocError (List (PoseCandidate K Pose)) :=
  if h : 1 < cs.length then
    let sampled := sample_pixels_for_ransac st m_batchSizeRansac (some mask) eng
    let cs1 := update_inliers_for_optimization st sampled.1 cs
    match (if m_poseUpdate then update_candidate_poses cs1 else .ok cs1) with
    | .error e => .error e
    | .ok cs1b =>
      match compute_and_sort_energies neglog applyPose bestMode st cs1b with
      | .error e => .error e
      | .ok cs2 =>
        ransacLoop neglog applyPose bestMode st (cs2.take (cs.length / 2))
          (sampled.2.1.getD mask) sampled.2.2
  else .ok cs
termination_by cs.length
decreasing_by
  simp only [List.length_take]
  omega

/-- `SLAMComponentWithScoreForest::estimate_pose` (lines 705-815) from the
point where the generated candidates are in hand: the one-off trim phase (if
more than 64 candidates: score against an unmasked 500-pixel batch, keep the
best 64, cap the inlier lists back to their pre-batch size), then the main
RANSAC loop with a fresh all-false mask, returning the first remaining
candidate if any. -/
def trimCandidates {K Pose : Type} [LinearOrderedField K] (neglog : ℚ → K)
    (applyPose : Pose → Vec3 → Vec3) (bestMode : GPUForestPrediction → Vec3 → ℤ × ℚ)
    (st : RelocState) (candidates : List (PoseCandidate K Pose)) (eng : RandEng) :
    Except RelocError (List (PoseCandidate K Pose) × RandEng) :=
  if m_trimKinitAfterFirstEnergyComputation < candidates.length then
    let nbSamplesPerCamera := (candidates.head?.map fun c => c.inliers.length).getD 0
    let sampled := sample_pixels_for_ransac st m_batchSizeRansac none eng
    let cs1 := update_inliers_for_optimization st sampled.1 candidates
    match compute_and_sort_energies neglog applyPose bestMode st cs1 with
    | .error e => .error e
    | .ok cs2 =>
      let cs3 := cs2.take m_trimKinitAfterFirstEnergyComputation
      let cs4 := if 1 < m_trimKinitAfterFirstEnergyComputation then
          cs3.map fun c => { c with inliers := c.inliers.take nbSamplesPerCamera }
        else cs3
      .ok (cs4, sampled.2.2)
  else .ok (candidates, eng)

def estimate_pose {K Pose : Type} [LinearOrderedField K] (neglog : ℚ → K)
    (applyPose : Pose → Vec3 → Vec3) (bestMode : GPUForestPrediction → Vec3 → ℤ × ℚ)
    (st : RelocState) (candidates : List (PoseCandidate K Pose)) (eng : RandEng) :
    Except RelocError (Option (PoseCandidate K Pose)) :=
  match trimCandidates neglog applyPose bestMode st candidates eng with
  | .error e => .error e
  | .ok r =>
    match ransacLoop neglog applyPose bestMode st r.1 (fun _ => false) r.2 with
    | .error e => .error e
    | .ok finalCs => .ok finalCs.head?

/-! Concrete fixtures for witnesses and counterexamples. -/

/-- Trivial pose type instantiation. -/
def kabschU : List Vec3 → List Vec3 → Unit := fun _ _ => ()

def applyPoseU : Unit → Vec3 → Vec3 := fun _ v => v

/-- Counterexample feature image: pixel 0 invalid, pixels 1-3 valid with
colour (10, 20, 30). -/
def ceFeature (i : ℕ) : RGBDPatchFeature :=
  if i = 0 then ⟨0, 0, 0, -1, 0, 0, 0⟩ else ⟨(i : ℚ), 0, 0, 0, 10, 20, 30⟩

/-- Counterexample predictions: pixel 0 has no modes; pixel `i ≥ 1` has one
mode at world position `(i, 0, 0)` with matching colour. -/
def cePrediction (i : ℕ) : GPUForestPrediction :=
  if i = 0 then ⟨0, []⟩ else ⟨1, [⟨⟨(i : ℚ), 0, 0⟩, 10, 20, 30, 1⟩]⟩

/-- A 4×1 feature image for the `hypothesize_pose` scenarios. -/
def stCE : RelocState := ⟨4, 1, ceFeature, cePrediction⟩

/-- A raw-draw stream whose first 12000 values (6000 inner iterations of two
draws each) all select the invalid pixel 0, and which afterwards yields pixels
1, 2, 3 in turn. -/
def ceStream : ℕ → ℕ := fun n => if n < 12000 then 0 else (n - 12000) / 3 + 1

/-- An engine over `ceStream`, starting at position 0: its first 6000-draw
inner attempt fails, while a second attempt would succeed. -/
def engCE : RandEng := ⟨ceStream, 0⟩

/-- An engine that yields pixels 1, 2, 3 immediately. -/
def engQuick : RandEng := ⟨fun n => n / 3 + 1, 0⟩

/-- A 1×1 state with a valid feature and a one-mode prediction (inlier count
1), for the energy fixtures. -/
def stE : RelocState :=
  ⟨1, 1, fun _ => ⟨0, 0, 0, 0, 0, 0, 0⟩, fun _ => ⟨1, [⟨⟨0, 0, 0⟩, 0, 0, 0, 1⟩]⟩⟩

/-- A backend query returning raw energy 10 for mode 0 (normalised energy 10 > 1). -/
def bestModeTen : GPUForestPrediction → Vec3 → ℤ × ℚ := fun _ _ => (0, 10)

/-- A backend query returning raw energy 1 for mode 0. -/
def bestModeOne : GPUForestPrediction → Vec3 → ℤ × ℚ := fun _ _ => (0, 1)

/-- A backend query reporting that no mode is valid. -/
def bestModeNone : GPUForestPrediction → Vec3 → ℤ × ℚ := fun _ _ => (-1, 0)

/-- `-log10f`, embedded exactly over the reals. -/
noncomputable def neglog10 (q : ℚ) : ℝ := -Real.logb 10 (q : ℝ)

/-- A linear pixel index references a valid feature (non-negative validity
component, i.e. the 4th position component) and a prediction with at least one
mode. -/
def validAt (st : RelocState) (idx : ℕ) : Prop :=
  0 ≤ (st.features idx).pw ∧ 0 < (st.predictions idx).nbModes

/-- Two selected `(x, y, modeIdx)` triples have mode world positions at least
`m_minDistanceBetweenSampledModes` apart (stated on squared distances). -/
def farRel (st : RelocState) (a b : ℕ × ℕ × ℕ) : Prop :=
  ¬ distSq (modePosOf st a) (modePosOf st b) < m_minDistanceBetweenSampledModes ^ 2

/-- The same spacing property on `(linearIdx, modeIdx)` inlier pairs. -/
def farInlierRel (st : RelocState) (a b : ℕ × ℤ) : Prop :=
  ¬ distSq ((getMode (st.predictions a.1) a.2.toNat).pos)
      ((getMode (st.predictions b.1) b.2.toNat).pos) < m_minDistanceBetweenSampledModes ^ 2

/-- The candidate `hypothesize_pose` produces on `stCE` with `engQuick`. -/
def cQuick : PoseCandidate ℚ Unit := ⟨(), [(1, 0), (2, 0), (3, 0)], 0, -1⟩

/-- An engine that always draws 0. -/
def engZero : RandEng := ⟨fun _ => 0, 0⟩

/-- The condition under which the energy loop body throws for an inlier: the
backend's best-mode query returns a negative mode index, or the matched mode
records zero supporting inliers. -/
def inlierInvariantViolated {Pose : Type} (applyPose : Pose → Vec3 → Vec3)
    (bestMode : GPUForestPrediction → Vec3 → ℤ × ℚ) (st : RelocState) (pose : Pose)
    (inlier : ℕ × ℤ) : Prop :=
  (bestMode (st.predictions inlier.1) (applyPose pose (featPos3at st inlier.1))).1 < 0
  ∨ (getMode (st.predictions inlier.1)
      (bestMode (st.predictions inlier.1)
        (applyPose pose (featPos3at st inlier.1))).1.toNat).nbInliers = 0

/-- The normalised mode energy of an inlier before the floor is applied. -/
def inlierNormEnergy {Pose : Type} (applyPose : Pose → Vec3 → Vec3)
    (bestMode : GPUForestPrediction → Vec3 → ℤ × ℚ) (st : RelocState) (pose : Pose)
    (inlier : ℕ × ℤ) : ℚ :=
  normalisedModeEnergy (st.predictions inlier.1)
    (bestMode (st.predictions inlier.1) (applyPose pose (featPos3at st inlier.1))).1.toNat
    (bestMode (st.predictions inlier.1) (applyPose pose (featPos3at st inlier.1))).2

/-- A constant stand-in for `-log10f` where only the error behaviour matters. -/
def neglogZero : ℚ → ℚ := fun _ => 0

/-- A candidate with a single inlier at pixel 0, for the error fixtures. -/
def cErrCand : PoseCandidate ℚ Unit := ⟨(), [(0, 0)], 0, -1⟩

/-- `cErrCand` after one RANSAC round on `stE`: scored (constant stand-in
energy 0) with the freshly sampled pixel 0 appended as an unassigned inlier. -/
def cWit : PoseCandidate ℚ Unit := ⟨(), [(0, 0), (0, -1)], 0, -1⟩

/-- A 1×1 state whose single valid pixel observes colour `(0, 0, 0)` while its
single mode's representative colour is `(240, 240, 240)`: every channel
differs by 240, yet the wrapped difference is `-240 mod 256 = 16 ≤ 30`. -/
def stColWrap : RelocState :=
  ⟨1, 1, fun _ => ⟨0, 0, 0, 0, 0, 0, 0⟩,
    fun _ => ⟨1, [⟨⟨0, 0, 0⟩, 240, 240, 240, 1⟩]⟩⟩

/-- A 1×1 state whose single valid pixel observes colour `(100, 100, 100)`
while its single mode's representative colour is `(110, 110, 110)`: every
channel differs by only 10, yet the wrapped difference is
`-10 mod 256 = 246 > 30`. -/
def stColNear : RelocState :=
  ⟨1, 1, fun _ => ⟨0, 0, 0, 0, 100, 100, 100⟩,
    fun _ => ⟨1, [⟨⟨0, 0, 0⟩, 110, 110, 110, 1⟩]⟩⟩

/-! ### Theorems: helper lemmas for fold-based min/max -/

theorem le_foldl_max (l : List ℚ) (a : ℚ) : a ≤ l.foldl max a := by
  induction l generalizing a with
  | nil => simp
  | cons b t ih => exact le_trans (le_max_left a b) (ih (max a b))

theorem mem_le_foldl_max (l : List ℚ) (a x : ℚ) (hx : x ∈ l) : x ≤ l.foldl max a := by
  induction l generalizing a with
  | nil => cases hx
  | cons b t ih =>
    rcases List.mem_cons.mp hx with h | h
    · subst h
      exact le_trans (le_max_right a x) (le_foldl_max t (max a x))
    · exact ih (max a b) h

theorem foldl_max_mem (l : List ℚ) (a : ℚ) : l.foldl max a ∈ l ∨ l.foldl max a = a := by
  induction l generalizing a with
  | nil => right; rfl
  | cons b t ih =>
    rcases ih (max a b) with h | h
    · left; exact List.mem_cons_of_mem b h
    · rcases max_choice a b with hc | hc
      · right; rw [List.foldl_cons, h, hc]
      · left; rw [List.foldl_cons, h, hc]; exact List.mem_cons_self b t

theorem foldl_min_le (l : List ℚ) (a : ℚ) : l.foldl min a ≤ a := by
  induction l generalizing a with
  | nil => simp
  | cons b t ih => exact le_trans (ih (min a b)) (min_le_left a b)

theorem foldl_min_le_mem (l : List ℚ) (a x : ℚ) (hx : x ∈ l) : l.foldl min a ≤ x := by
  induction l generalizing a with
  | nil => cases hx
  | cons b t ih =>
    rcases List.mem_cons.mp hx with h | h
    · subst h
      exact le_trans (foldl_min_le t (min a x)) (min_le_right a x)
    · exact ih (min a b) h

theorem foldl_min_mem (l : List ℚ) (a : ℚ) : l.foldl min a ∈ l ∨ l.foldl min a = a := by
  induction l generalizing a with
  | nil => right; rfl
  | cons b t ih =>
    rcases ih (min a b) with h | h
    · left; exact List.mem_cons_of_mem b h
    · rcases min_choice a b with hc | hc
      · right; rw [List.foldl_cons, h, hc]
      · left; rw [List.foldl_cons, h, hc]; exact List.mem_cons_self b t

theorem maxElement_mem (l : List ℚ) (hl : l ≠ []) : maxElement l ∈ l := by
  rcases foldl_max_mem l (l.headD 0) with h | h
  · exact h
  · rw [maxElement, h]
    cases l with
    | nil => exact absurd rfl hl
    | cons b t => exact List.mem_cons_self b t

theorem minElement_mem (l : List ℚ) (hl : l ≠ []) : minElement l ∈ l := by
  rcases foldl_min_mem l (l.headD 0) with h | h
  · exact h
  · rw [minElement, h]
    cases l with
    | nil => exact absurd rfl hl
    | cons b t => exact List.mem_cons_self b t

theorem mem_le_maxElement (l : List ℚ) (x : ℚ) (hx : x ∈ l) : x ≤ maxElement l :=
  mem_le_foldl_max l (l.headD 0) x hx

theorem minElement_le_mem (l : List ℚ) (x : ℚ) (hx : x ∈ l) : minElement l ≤ x :=
  foldl_min_le_mem l (l.headD 0) x hx

/-! ### Theorems for claims C8 and C10 -/

/-- C8: `make_greyscale_image` in row-major order writes
`clamp(scaleFunc(input[i]))` at output byte `i` for every `i < width*height`;
in column-major order the output pixel at `(x, y)` (linear output index
`y*width + x`) is `clamp(scaleFunc(input[x*height + y]))`. -/
theorem make_greyscale_image_correct (inputData : ℕ → ℚ) (width height : ℕ)
    (scaleFunc : ℚ → ℚ) :
    (∀ i, i < width * height →
      (make_greyscale_image inputData width height .ROW_MAJOR scaleFunc)[i]? =
        some (clamp_pixel_value (scaleFunc (inputData i))))
    ∧ (∀ x y, x < width → y < height →
      (make_greyscale_image inputData width height .COL_MAJOR scaleFunc)[y * width + x]? =
        some (clamp_pixel_value (scaleFunc (inputData (x * height + y))))) := by
  constructor
  · intro i hi
    simp [make_greyscale_image, List.getElem?_map, List.getElem?_range, hi]
  · intro x y hx hy
    have hw : 0 < width := Nat.lt_of_le_of_lt (Nat.zero_le x) hx
    have hlt : y * width + x < width * height := by
      have h1 : y * width + x < (y + 1) * width := by
        rw [Nat.succ_mul]
        exact Nat.add_lt_add_left hx _
      have h2 : (y + 1) * width ≤ height * width :=
        Nat.mul_le_mul_right _ (Nat.succ_le_of_lt hy)
      rw [Nat.mul_comm width height]
      exact Nat.lt_of_lt_of_le h1 h2
    have hmod : (y * width + x) % width = x := by
      rw [Nat.add_comm (y * width) x, Nat.add_mul_mod_self_right]
      exact Nat.mod_eq_of_lt hx
    have hdiv : (y * width + x) / width = y := by
      rw [Nat.add_comm (y * width) x, Nat.add_mul_div_right x y hw]
      rw [Nat.div_eq_of_lt hx, Nat.zero_add]
    simp [make_greyscale_image, List.getElem?_map, List.getElem?_range, hlt, hmod, hdiv]

/-- Witness for C8 at a concrete input: width 2, height 2, identity scaling. -/
theorem make_greyscale_image_correct_witness :
    (make_greyscale_image (fun n => (n : ℚ)) 2 2 .ROW_MAJOR id)[1]? =
      some (clamp_pixel_value (id ((1 : ℕ) : ℚ)))
    ∧ (make_greyscale_image (fun n => (n : ℚ)) 2 2 .COL_MAJOR id)[1 * 2 + 1]? =
      some (clamp_pixel_value (id (((1 * 2 + 1 : ℕ)) : ℚ))) :=
  ⟨(make_greyscale_image_correct (fun n => (n : ℚ)) 2 2 id).1 1 (by decide),
   (make_greyscale_image_correct (fun n => (n : ℚ)) 2 2 id).2 1 1 (by decide) (by decide)⟩

/-- C10: `ScaleDataToRange` behaviour. If the input buffer holds two distinct
values, the derived input range is non-degenerate (`min < max`, so the
scaling-factor division has a non-zero denominator) and the functor maps the
minimum input to `minOutputValue` and the maximum to `maxOutputValue`. If all
input values are equal, the divisor `maxInputValue - minInputValue` of the
constructor's division is exactly zero (a division by zero in the source,
producing a non-finite float scaling factor). -/
theorem scaleDataToRange_behaviour (l : List ℚ) (lo hi : ℚ) :
    (∀ a ∈ l, ∀ b ∈ l, a ≠ b →
      minElement l < maxElement l
      ∧ scaleApply (makeScaleDataToRange l lo hi) (minElement l) = lo
      ∧ scaleApply (makeScaleDataToRange l lo hi) (maxElement l) = hi)
    ∧ (l ≠ [] → (∀ a ∈ l, ∀ b ∈ l, a = b) → maxElement l - minElement l = 0) := by
  constructor
  · intro a ha b hb hab
    have hlt : minElement l < maxElement l := by
      rcases lt_or_le (minElement l) (maxElement l) with h | h
      · exact h
      · exfalso
        apply hab
        have h1 : a ≤ maxElement l := mem_le_maxElement l a ha
        have h2 : minElement l ≤ a := minElement_le_mem l a ha
        have h3 : b ≤ maxElement l := mem_le_maxElement l b hb
        have h4 : minElement l ≤ b := minElement_le_mem l b hb
        have hmm : maxElement l ≤ minElement l := h
        have ha' : a = minElement l := le_antisymm (le_trans h1 hmm) h2
        have hb' : b = minElement l := le_antisymm (le_trans h3 hmm) h4
        rw [ha', hb']
    refine ⟨hlt, ?_, ?_⟩
    · simp [scaleApply, makeScaleDataToRange]
    · have hne : maxElement l - minElement l ≠ 0 := sub_ne_zero.mpr (ne_of_gt hlt)
      simp only [scaleApply, makeScaleDataToRange]
      field_simp
  · intro hl hall
    have h1 : maxElement l ∈ l := maxElement_mem l hl
    have h2 : minElement l ∈ l := minElement_mem l hl
    rw [hall (maxElement l) h1 (minElement l) h2]
    ring

/-- Witness for C10: the spec's own test vector `[1,5,10] → [0,255]` for the
non-degenerate case, and an all-equal buffer `[2,2]` for the zero-denominator
case. -/
theorem scaleDataToRange_behaviour_witness :
    (minElement [(1 : ℚ), 5, 10] < maxElement [(1 : ℚ), 5, 10]
      ∧ scaleApply (makeScaleDataToRange [(1 : ℚ), 5, 10] 0 255) (minElement [(1 : ℚ), 5, 10]) = 0
      ∧ scaleApply (makeScaleDataToRange [(1 : ℚ), 5, 10] 0 255) (maxElement [(1 : ℚ), 5, 10]) = 255)
    ∧ maxElement [(2 : ℚ), 2] - minElement [(2 : ℚ), 2] = 0 :=
  ⟨(scaleDataToRange_behaviour [(1 : ℚ), 5, 10] 0 255).1 1 (by decide) 10 (by decide) (by decide),
   (scaleDataToRange_behaviour [(2 : ℚ), 2] 0 255).2 (by decide) (by decide)⟩

/-! ### Theorems for claim C2 -/

theorem find?_mapReplace {P : Type} (l : List ((String × String) × List (P × List P)))
    (key : String × String) (v : List (P × List P)) :
    ((l.map fun e => if e.1 = key then (key, v) else e).find? fun e => decide (e.1 = key))
      = if (l.find? fun e => decide (e.1 = key)).isSome then some (key, v) else none := by
  induction l with
  | nil => simp
  | cons e t ih =>
    by_cases he : e.1 = key
    · simp [he]
    · have hne : (List.find? (fun e => decide (e.1 = key)) (e :: t))
          = List.find? (fun e => decide (e.1 = key)) t :=
        List.find?_cons_of_neg t (by simp [he])
      rw [hne]
      simp [he, ih]

theorem find?_append_singleton {α : Type} (l : List α) (p : α → Bool) (x : α)
    (h : l.find? p = none) : (l ++ [x]).find? p = if p x then some x else none := by
  induction l with
  | nil =>
    cases hp : p x with
    | true => simp [hp]
    | false => simp [hp]
  | cons e t ih =>
    cases hp : p e with
    | true =>
      rw [List.find?_cons_of_pos _ (by simp [hp])] at h
      cases h
    | false =>
      rw [List.find?_cons_of_neg _ (by simp [hp])] at h
      rw [List.cons_append, List.find?_cons_of_neg _ (by simp [hp]), ih h]

theorem lookupSamples_after_set {P : Type} (st : CPOState P) (key : String × String)
    (v : List (P × List P)) (ids : List String) (chg : Bool) :
    lookupSamples ⟨ids, setSamples st key v, chg⟩ key = some v := by
  unfold lookupSamples setSamples
  cases h : st.relativeTransformSamples.find? fun e => decide (e.1 = key) with
  | none =>
    simp only [h, Option.isSome_none, Bool.false_eq_true, if_false]
    rw [find?_append_singleton _ _ _ h]
    simp
  | some e =>
    simp only [h, Option.isSome_some, if_true]
    rw [find?_mapReplace, h]
    simp

theorem iterateAddSub_cluster {P : Type} (near : P → P → Bool) (th : ℕ)
    (i j : String) (p : P) (st0 : CPOState P)
    (hnear : near p p = true) (hfresh : lookupSamples st0 (i, j) = none) :
    ∀ k, lookupSamples (iterateAddSub near th i j p st0 (k + 1)) (i, j)
      = some [(p, List.replicate k p)] := by
  intro k
  induction k with
  | zero =>
    show lookupSamples (add_relative_transform_sample_sub near th st0 i j p).1 (i, j) = _
    unfold add_relative_transform_sample_sub
    simp only [hfresh, Option.getD_none, List.findIdx?_nil]
    exact lookupSamples_after_set st0 (i, j) [(p, List.replicate 0 p)] _ _
  | succ k ih =>
    show lookupSamples
      (add_relative_transform_sample_sub near th (iterateAddSub near th i j p st0 (k + 1)) i j p).1
        (i, j) = _
    have hfind : (([(p, List.replicate k p)]).findIdx? fun cl => near p cl.1) = some 0 := by
      simp [hnear]
    have hrep : List.replicate k p ++ [p] = List.replicate (k + 1) p := by
      simp [List.replicate_succ']
    unfold add_relative_transform_sample_sub
    simp only [ih, Option.getD_some, hfind, List.getD_cons_zero, List.set_cons_zero, hrep]
    exact lookupSamples_after_set _ (i, j) [(p, List.replicate (k + 1) p)] _ _

/-- C2 (amended): the private helper `add_relative_transform_sample_sub` —
not the `void` public `add_relative_transform_sample` — returns the
"now confident" boolean: starting from a state with no samples for the pair
`(i, j)` and adding the same (hence mutually consistent) sample repeatedly, the
`(k+1)`-th call returns `true` exactly when the receiving cluster's size
`k + 1` has reached the confidence threshold. -/
theorem addSub_confident_iff {P : Type} (near : P → P → Bool) (th : ℕ)
    (p : P) (i j : String) (st0 : CPOState P)
    (hnear : near p p = true) (hfresh : lookupSamples st0 (i, j) = none) (k : ℕ) :
    ((add_relative_transform_sample_sub near th (iterateAddSub near th i j p st0 k) i j p).2
      = true) ↔ th ≤ k + 1 := by
  cases k with
  | zero =>
    show (add_relative_transform_sample_sub near th st0 i j p).2 = true ↔ th ≤ 1
    unfold add_relative_transform_sample_sub
    simp only [hfresh, Option.getD_none, List.findIdx?_nil]
    exact decide_eq_true_iff
  | succ k =>
    have hfind : (([(p, List.replicate k p)]).findIdx? fun cl => near p cl.1) = some 0 := by
      simp [hnear]
    unfold add_relative_transform_sample_sub
    simp only [iterateAddSub_cluster near th i j p st0 hnear hfresh k, Option.getD_some, hfind,
      List.getD_cons_zero, List.length_replicate, decide_eq_true_iff]

/-- Witness for the amended C2 at a concrete instantiation: integer samples,
exact-equality clustering, threshold 2; the second call on a fresh pair is
exactly the one that reaches the threshold. -/
theorem addSub_confident_iff_witness :
    ((add_relative_transform_sample_sub nearZ 2 (iterateAddSub nearZ 2 "A" "B" (0 : ℤ) cpoEmpty 1)
      "A" "B" (0 : ℤ)).2 = true) ↔ (2 : ℕ) ≤ 1 + 1 :=
  addSub_confident_iff nearZ 2 (0 : ℤ) "A" "B" cpoEmpty (by decide) rfl 1

/-- Counterexample to C2 as stated: the public `add_relative_transform_sample`
is declared `void` (header lines 93-104), so its return value cannot indicate
anything — here two concrete calls, one of which leaves the receiving cluster
below the confidence threshold (the modelled private helper reports `false`)
and one of which reaches it (the helper reports `true`), return identical
values from the public operation. -/
theorem add_sample_void_counterexample :
    (add_relative_transform_sample_sub nearZ 2 cpoEmpty "A" "B" (0 : ℤ)).2 = false
    ∧ (add_relative_transform_sample_sub nearZ 2 cpoAfterOne "A" "B" (0 : ℤ)).2 = true
    ∧ (add_relative_transform_sample Int.neg nearZ 2 cpoEmpty "A" "B" (0 : ℤ)).2
        = (add_relative_transform_sample Int.neg nearZ 2 cpoAfterOne "A" "B" (0 : ℤ)).2 :=
  ⟨by decide, by decide, rfl⟩

/-! ### Theorems: the selection step of `hypothesize_pose` -/

theorem trySelect_eq (st : RelocState) (sel : List (ℕ × ℕ × ℕ)) (eng : RandEng) :
    trySelect st sel eng =
      (let xe := draw st.width eng
       let ye := draw st.height xe.2
       let idx := ye.1 * st.width + xe.1
       if decide ((st.features idx).pw < 0) then (none, ye.2)
       else if decide ((st.predictions idx).nbModes = 0) then (none, ye.2)
       else
         let me := draw (st.predictions idx).nbModes ye.2
         if sel.isEmpty && !colourConsistent (st.features idx) (getMode (st.predictions idx) me.1)
           then (none, me.2)
         else if !farFromAll st sel (getMode (st.predictions idx) me.1).pos then (none, me.2)
         else (some (xe.1, ye.1, me.1), me.2)) := rfl

theorem trySelect_some (st : RelocState) (sel : List (ℕ × ℕ × ℕ)) (eng : RandEng)
    (s : ℕ × ℕ × ℕ) (h : (trySelect st sel eng).1 = some s) :
    0 ≤ (st.features (linOf st s)).pw
    ∧ 0 < (st.predictions (linOf st s)).nbModes
    ∧ farFromAll st sel (modePosOf st s) = true := by
  rw [trySelect_eq] at h
  simp only [] at h
  split at h
  · simp at h
  · split at h
    · simp at h
    · split at h
      · simp at h
      · split at h
        · simp at h
        · next hval hmod hcol hfar =>
          simp only [Option.some.injEq] at h
          subst h
          refine ⟨?_, ?_, ?_⟩
          · exact le_of_not_lt (by simpa using hval)
          · exact Nat.pos_of_ne_zero (by simpa using hmod)
          · simpa using hfar

theorem colourConsistent_iff (f : RGBDPatchFeature) (m : GPUForestMode) :
    colourConsistent f m = true ↔
      ((f.cr - m.cr) % 256 ≤ 30 ∧ (f.cg - m.cg) % 256 ≤ 30 ∧ (f.cb - m.cb) % 256 ≤ 30) := by
  simp [colourConsistent, and_assoc]

/-- C4 (amended): a sampled pair whose feature is valid and whose prediction
has at least one mode is accepted as the first chosen point (empty selection
so far) exactly when, for every channel, the difference observed minus mode
colour reduced mod 256 into `[0, 255]` — as the `Vector3u` holding the
unsigned-char difference stores it — is at most 30. This gate is asymmetric:
it accepts signed differences in `[0, 30]` or at most `-226`, so the spec's
symmetric within-30 reading fails in both directions. -/
theorem first_point_colour_gate (st : RelocState) (eng : RandEng) (x y m idx : ℕ)
    (hx : x = (draw st.width eng).1)
    (hy : y = (draw st.height (draw st.width eng).2).1)
    (hidx : idx = y * st.width + x)
    (hm : m = (draw (st.predictions idx).nbModes (draw st.height (draw st.width eng).2).2).1)
    (hvalid : 0 ≤ (st.features idx).pw)
    (hmodes : (st.predictions idx).nbModes ≠ 0) :
    (trySelect st [] eng).1 = some (x, y, m)
      ↔ (((st.features idx).cr - (getMode (st.predictions idx) m).cr) % 256 ≤ 30
        ∧ ((st.features idx).cg - (getMode (st.predictions idx) m).cg) % 256 ≤ 30
        ∧ ((st.features idx).cb - (getMode (st.predictions idx) m).cb) % 256 ≤ 30) := by
  rw [← colourConsistent_iff]
  subst hx hy hidx hm
  rw [trySelect_eq]
  simp only [decide_eq_false (not_lt.mpr hvalid), decide_eq_false hmodes, Bool.false_eq_true,
    if_false, List.isEmpty_nil, Bool.true_and]
  have hfar : farFromAll st []
      (getMode (st.predictions
          ((draw st.height (draw st.width eng).2).1 * st.width + (draw st.width eng).1))
        ((draw (st.predictions
            ((draw st.height (draw st.width eng).2).1 * st.width + (draw st.width eng).1)).nbModes
          (draw st.height (draw st.width eng).2).2).1)).pos = true := by
    simp [farFromAll]
  cases hcol : colourConsistent
      (st.features ((draw st.height (draw st.width eng).2).1 * st.width + (draw st.width eng).1))
      (getMode (st.predictions
          ((draw st.height (draw st.width eng).2).1 * st.width + (draw st.width eng).1))
        ((draw (st.predictions
            ((draw st.height (draw st.width eng).2).1 * st.width + (draw st.width eng).1)).nbModes
          (draw st.height (draw st.width eng).2).2).1)) with
  | true => simp [hcol, hfar]
  | false => simp [hcol]

/-- Witness for C4 at the concrete 4×1 state: the drawn pixel is the valid
pixel 1, whose colour matches its single mode. -/
theorem first_point_colour_gate_witness :
    (trySelect stCE [] engQuick).1 = some (1, 0, 0)
      ↔ (((stCE.features 1).cr - (getMode (stCE.predictions 1) 0).cr) % 256 ≤ 30
        ∧ ((stCE.features 1).cg - (getMode (stCE.predictions 1) 0).cg) % 256 ≤ 30
        ∧ ((stCE.features 1).cb - (getMode (stCE.predictions 1) 0).cb) % 256 ≤ 30) :=
  first_point_colour_gate stCE engQuick 1 0 0 1 rfl rfl rfl rfl (by decide) (by decide)

/-- Counterexample for C4: on `stColWrap` the observed colour `(0, 0, 0)`
differs from the mode colour `(240, 240, 240)` by 240 in every channel, yet
the pixel is accepted as the first point (the unsigned difference wraps to
16); on `stColNear` the observed colour `(100, 100, 100)` is within 10 of the
mode colour `(110, 110, 110)` in every channel, yet the pixel is rejected (the
unsigned difference wraps to 246). Both directions of the claimed
within-30 iff fail on the program's gate. -/
theorem first_point_colour_gate_counterexample :
    ((trySelect stColWrap [] engZero).1 = some (0, 0, 0)
      ∧ ¬(|((stColWrap.features 0).cr - (getMode (stColWrap.predictions 0) 0).cr)| ≤ 30))
    ∧ ((trySelect stColNear [] engZero).1 = none
      ∧ |((stColNear.features 0).cr - (getMode (stColNear.predictions 0) 0).cr)| ≤ 30) :=
  ⟨⟨by with_unfolding_all rfl, by decide⟩, ⟨by with_unfolding_all rfl, by decide⟩⟩

/-! ### Theorems: invariants of the selection loop (claims C5 and C7) -/

theorem farFromAll_iff (st : RelocState) (sel : List (ℕ × ℕ × ℕ)) (pt : Vec3) :
    farFromAll st sel pt = true
      ↔ ∀ o ∈ sel, ¬ distSq (modePosOf st o) pt < m_minDistanceBetweenSampledModes ^ 2 := by
  simp [farFromAll]

theorem innerLoop_mem_valid (st : RelocState) : ∀ (fuel : ℕ) (sel : List (ℕ × ℕ × ℕ))
    (eng : RandEng), (∀ s ∈ sel, validAt st (linOf st s)) →
    ∀ s ∈ (innerLoop st fuel sel eng).1, validAt st (linOf st s) := by
  intro fuel
  induction fuel with
  | zero => intro sel eng hsel; simpa [innerLoop] using hsel
  | succ n ih =>
    intro sel eng hsel
    simp only [innerLoop]
    split
    · exact hsel
    · cases htr : trySelect st sel eng with
    | mk o e2 =>
      cases o with
      | some s' =>
        refine ih (sel ++ [s']) e2 ?_
        intro s hs
        rcases List.mem_append.mp hs with h | h
        · exact hsel s h
        · have hs' : s = s' := by simpa using h
          subst hs'
          have hv := trySelect_some st sel eng s (by rw [htr])
          exact ⟨hv.1, hv.2.1⟩
      | none => exact ih sel e2 hsel

theorem innerLoop_pairwise (st : RelocState) : ∀ (fuel : ℕ) (sel : List (ℕ × ℕ × ℕ))
    (eng : RandEng), sel.Pairwise (farRel st) →
    ((innerLoop st fuel sel eng).1).Pairwise (farRel st) := by
  intro fuel
  induction fuel with
  | zero => intro sel eng hsel; simpa [innerLoop] using hsel
  | succ n ih =>
    intro sel eng hsel
    simp only [innerLoop]
    split
    · exact hsel
    · cases htr : trySelect st sel eng with
    | mk o e2 =>
      cases o with
      | some s' =>
        refine ih (sel ++ [s']) e2 ?_
        rw [List.pairwise_append]
        refine ⟨hsel, List.pairwise_singleton _ _, ?_⟩
        intro a ha b hb
        have hb' : b = s' := by simpa using hb
        have hv := trySelect_some st sel eng s' (by rw [htr])
        rw [hb']
        exact (farFromAll_iff st sel (modePosOf st s')).mp hv.2.2 a ha
      | none => exact ih sel e2 hsel

theorem sampleOnePixel_some (st : RelocState) : ∀ (tries : ℕ) (mask : Option (ℕ → Bool))
    (eng : RandEng) (s : ℕ × ℕ), (sampleOnePixel st tries mask eng).1 = some s →
    validAt st (s.2 * st.width + s.1) := by
  intro tries
  induction tries with
  | zero => intro mask eng s h; simp [sampleOnePixel] at h
  | succ n ih =>
    intro mask eng s h
    simp only [sampleOnePixel] at h
    split at h
    · next hcond =>
      simp only [Option.some.injEq] at h
      subst h
      simp only [Bool.and_eq_true, decide_eq_true_eq] at hcond
      exact ⟨hcond.1.1, hcond.1.2⟩
    · exact ih _ _ _ h

theorem sample_pixels_valid (st : RelocState) : ∀ (batch : ℕ) (mask : Option (ℕ → Bool))
    (eng : RandEng) (p : ℕ × ℕ), p ∈ (sample_pixels_for_ransac st batch mask eng).1 →
    validAt st (p.2 * st.width + p.1) := by
  intro batch
  induction batch with
  | zero => intro mask eng p h; simp [sample_pixels_for_ransac] at h
  | succ b ih =>
    intro mask eng p h
    simp only [sample_pixels_for_ransac] at h
    cases hr : (sampleOnePixel st 50 mask eng).1 with
    | none => rw [hr] at h; simp at h
    | some s =>
      rw [hr] at h
      simp only [List.mem_cons] at h
      rcases h with h | h
      · subst h
        exact sampleOnePixel_some st 50 mask eng p hr
      · exact ih _ _ _ h

/-- C5: every inlier pair a pose candidate acquires references a valid feature
(4th position component non-negative) and a prediction with at least one mode
— both for the three bootstrap points chosen by `hypothesize_pose` and for
every pixel produced by the batch sampler `sample_pixels_for_ransac` (whose
output is what the RANSAC rounds append as inliers). -/
theorem inlier_sources_valid {K Pose : Type} [Zero K] :
    (∀ (kabsch : List Vec3 → List Vec3 → Pose) (st : RelocState) (eng : RandEng)
        (c : PoseCandidate K Pose), hypothesize_pose kabsch st eng = some c →
      ∀ p ∈ c.inliers, validAt st p.1)
    ∧ (∀ (st : RelocState) (batch : ℕ) (mask : Option (ℕ → Bool)) (eng : RandEng)
        (p : ℕ × ℕ), p ∈ (sample_pixels_for_ransac st batch mask eng).1 →
      validAt st (p.2 * st.width + p.1)) := by
  constructor
  · intro kabsch st eng c h p hp
    rw [hypothesize_pose, show maxIterationsOuter = 19 + 1 from rfl] at h
    simp only [outerLoop] at h
    split at h
    · next hlen =>
      simp only [Option.some.injEq] at h
      subst h
      simp only [mkCandidate, List.mem_map] at hp
      obtain ⟨s, hs, hps⟩ := hp
      have hv := innerLoop_mem_valid st maxIterationsInner [] eng (by simp) s hs
      rw [← hps]
      exact hv
    · simp at h
  · exact sample_pixels_valid

/-- Witness for C5: the quick-success hypothesis on the 4×1 state (inlier
pixel 1) and a one-pixel batch sample on the 1×1 state (pixel 0). -/
theorem inlier_sources_valid_witness : validAt stCE 1 ∧ validAt stE 0 :=
  ⟨(@inlier_sources_valid ℚ Unit _).1 kabschU stCE engQuick cQuick (by with_unfolding_all rfl)
      (1, 0) (by decide),
   (@inlier_sources_valid ℚ Unit _).2 stE 1 none engZero (0, 0) (by with_unfolding_all decide)⟩

/-- C7: with the minimum-distance check enabled (`m_checkMinDistanceBetweenSampledModes`
is the constant `true`), any hypothesis returned by `hypothesize_pose` has its
chosen points' mode world positions pairwise at least 0.3 m apart (no two
closer than `m_minDistanceBetweenSampledModes`). -/
theorem hypothesis_min_mode_distance {K Pose : Type} [Zero K]
    (kabsch : List Vec3 → List Vec3 → Pose) (st : RelocState) (eng : RandEng)
    (c : PoseCandidate K Pose) (h : hypothesize_pose kabsch st eng = some c) :
    c.inliers.Pairwise (farInlierRel st) := by
  rw [hypothesize_pose, show maxIterationsOuter = 19 + 1 from rfl] at h
  simp only [outerLoop] at h
  split at h
  · next hlen =>
    simp only [Option.some.injEq] at h
    subst h
    simp only [mkCandidate]
    rw [List.pairwise_map]
    have hpw := innerLoop_pairwise st maxIterationsInner [] eng List.Pairwise.nil
    refine hpw.imp ?_
    intro a b hab
    simpa [farInlierRel, farRel, modePosOf, linOf] using hab
  · simp at h

/-- Witness for C7: the quick-success hypothesis on the 4×1 state. -/
theorem hypothesis_min_mode_distance_witness : cQuick.inliers.Pairwise (farInlierRel stCE) :=
  hypothesis_min_mode_distance kabschU stCE engQuick cQuick (by with_unfolding_all rfl)

/-! ### Theorems for claim C1 -/

/-- C1 (amended): `hypothesize_pose` performs exactly one inner attempt of at
most 6000 draws — the 20-iteration outer loop never retries, because a failed
inner loop returns immediately — and it returns a candidate exactly when that
single attempt selects 3 valid `(pixel, mode)` pairs; on success the
candidate's pose is the Kabsch rigid alignment of the 3 local camera-space
points to the 3 predicted world points, its inliers are exactly the 3 chosen
`(pixel-index, mode-index)` pairs, its energy is 0 and its id is -1. -/
theorem hypothesize_pose_single_attempt {K Pose : Type} [Zero K]
    (kabsch : List Vec3 → List Vec3 → Pose) (st : RelocState) (eng : RandEng)
    (c : PoseCandidate K Pose) :
    hypothesize_pose kabsch st eng = some c ↔
      ((innerLoop st maxIterationsInner [] eng).1.length = m_nbPointsForKabschBoostrap
        ∧ c.cameraPose = kabsch
            ((innerLoop st maxIterationsInner [] eng).1.map (featPosOf st))
            ((innerLoop st maxIterationsInner [] eng).1.map (modePosOf st))
        ∧ c.inliers = (innerLoop st maxIterationsInner [] eng).1.map
            (fun s => (linOf st s, (s.2.2 : ℤ)))
        ∧ c.energy = 0 ∧ c.cameraId = -1) := by
  rw [hypothesize_pose, show maxIterationsOuter = 19 + 1 from rfl]
  simp only [outerLoop]
  split
  · next hlen =>
    cases c with
    | mk pose inl en id =>
      simp only [mkCandidate, Option.some.injEq, PoseCandidate.mk.injEq]
      constructor
      · rintro ⟨h1, h2, h3, h4⟩
        exact ⟨hlen, h1.symm, h2.symm, h3.symm, h4.symm⟩
      · rintro ⟨_, h1, h2, h3, h4⟩
        exact ⟨h1.symm, h2.symm, h3.symm, h4.symm⟩
  · next hlen =>
    constructor
    · intro h; cases h
    · rintro ⟨hl, _⟩; exact absurd hl hlen

theorem ceStream_lt (p : ℕ) (hp : p < 12000) : ceStream p = 0 := by
  simp only [ceStream]
  rw [if_pos hp]

theorem ce_trySelect_fail (p : ℕ) (hp : p + 1 < 12000) :
    trySelect stCE [] ⟨ceStream, p⟩ = (none, ⟨ceStream, p + 2⟩) := by
  rw [trySelect_eq]
  simp only [draw, ceStream_lt p (by omega), ceStream_lt (p + 1) hp]
  norm_num [stCE, ceFeature]

theorem ce_innerLoop_fail : ∀ (f p : ℕ), p + 2 * f ≤ 12000 →
    innerLoop stCE f [] ⟨ceStream, p⟩ = ([], ⟨ceStream, p + 2 * f⟩) := by
  intro f
  induction f with
  | zero => intro p hp; simp [innerLoop]
  | succ n ih =>
    intro p hp
    have hpos : p + 2 + 2 * n = p + 2 * (n + 1) := by omega
    simp only [innerLoop, List.length_nil, m_nbPointsForKabschBoostrap]
    rw [if_neg (by omega), ce_trySelect_fail p (by omega)]
    show innerLoop stCE n [] ⟨ceStream, p + 2⟩ = ([], ⟨ceStream, p + 2 * (n + 1)⟩)
    rw [ih (p + 2) (by omega), hpos]

/-- Counterexample to C1 as stated: on the concrete 4×1 state, the engine
`engCE` fails its first 6000-draw attempt (every draw hits the invalid pixel)
but a second attempt — which the spec's "up to 20 outer attempts" semantics,
embedded as `specHypothesizePose`, does perform — assembles 3 valid pairs.
The code's `hypothesize_pose` nevertheless returns no hypothesis, because the
early `return false` inside the outer loop makes the remaining 19 attempts
dead code. -/
theorem hypothesize_pose_outer_retry_counterexample :
    (hypothesize_pose kabschU stCE engCE : Option (PoseCandidate ℚ Unit)).isNone = true
    ∧ (specHypothesizePose kabschU stCE maxIterationsOuter engCE
        : Option (PoseCandidate ℚ Unit)).isSome = true := by
  have hfail : innerLoop stCE maxIterationsInner [] ⟨ceStream, 0⟩ = ([], ⟨ceStream, 12000⟩) := by
    have h := ce_innerLoop_fail 6000 0 (by omega)
    simpa [maxIterationsInner] using h
  have hsucc : innerLoop stCE maxIterationsInner [] ⟨ceStream, 12000⟩
      = ([(1, 0, 0), (2, 0, 0), (3, 0, 0)], ⟨ceStream, 12009⟩) := by
    with_unfolding_all rfl
  constructor
  · rw [hypothesize_pose, show maxIterationsOuter = 19 + 1 from rfl,
      show engCE = ⟨ceStream, 0⟩ from rfl]
    simp [outerLoop, hfail, m_nbPointsForKabschBoostrap]
  · rw [show maxIterationsOuter = 19 + 1 from rfl, show engCE = ⟨ceStream, 0⟩ from rfl]
    simp [specHypothesizePose, hfail, hsucc, m_nbPointsForKabschBoostrap]

/-! ### Theorems for claims C6 and C3 (energy computation) -/

theorem inlierEnergyTerm_error_iff {K Pose : Type} (neglog : ℚ → K)
    (applyPose : Pose → Vec3 → Vec3) (bestMode : GPUForestPrediction → Vec3 → ℤ × ℚ)
    (st : RelocState) (pose : Pose) (i : ℕ × ℤ) :
    (∃ e, inlierEnergyTerm neglog applyPose bestMode st pose i = Except.error e)
      ↔ inlierInvariantViolated applyPose bestMode st pose i := by
  simp only [inlierEnergyTerm, inlierInvariantViolated]
  split
  · next hneg =>
    simp only [decide_eq_true_eq] at hneg
    constructor
    · intro _; exact Or.inl hneg
    · intro _; exact ⟨RelocError.noValidModes, rfl⟩
  · next hneg =>
    simp only [decide_eq_true_eq] at hneg
    split
    · next hzero =>
      simp only [decide_eq_true_eq] at hzero
      constructor
      · intro _; exact Or.inr hzero
      · intro _; exact ⟨RelocError.modeHasNoInliers, rfl⟩
    · next hzero =>
      simp only [decide_eq_true_eq] at hzero
      constructor
      · rintro ⟨e, he⟩; cases he
      · rintro (h | h)
        · exact absurd h hneg
        · exact absurd h hzero

theorem inlierEnergyTerm_ok {K Pose : Type} (neglog : ℚ → K)
    (applyPose : Pose → Vec3 → Vec3) (bestMode : GPUForestPrediction → Vec3 → ℤ × ℚ)
    (st : RelocState) (pose : Pose) (i : ℕ × ℤ) (t : K)
    (h : inlierEnergyTerm neglog applyPose bestMode st pose i = Except.ok t) :
    t = neglog (flooredEnergy (inlierNormEnergy applyPose bestMode st pose i)) := by
  simp only [inlierEnergyTerm] at h
  split at h
  · cases h
  · split at h
    · cases h
    · simp only [Except.ok.injEq] at h
      exact h.symm

theorem sumInlierEnergies_error_iff {K Pose : Type} [LinearOrderedField K] (neglog : ℚ → K)
    (applyPose : Pose → Vec3 → Vec3) (bestMode : GPUForestPrediction → Vec3 → ℤ × ℚ)
    (st : RelocState) (pose : Pose) : ∀ (inliers : List (ℕ × ℤ)),
    (∃ e, sumInlierEnergies neglog applyPose bestMode st pose inliers = Except.error e)
      ↔ ∃ i ∈ inliers, inlierInvariantViolated applyPose bestMode st pose i := by
  intro inliers
  induction inliers with
  | nil =>
    simp only [sumInlierEnergies, List.not_mem_nil]
    constructor
    · rintro ⟨e, he⟩; cases he
    · rintro ⟨i, hi, _⟩; cases hi
  | cons i rest ih =>
    simp only [sumInlierEnergies]
    cases ht : inlierEnergyTerm neglog applyPose bestMode st pose i with
    | error e =>
      simp only [List.mem_cons]
      constructor
      · intro _
        exact ⟨i, Or.inl rfl,
          (inlierEnergyTerm_error_iff neglog applyPose bestMode st pose i).mp ⟨e, ht⟩⟩
      · intro _; exact ⟨e, rfl⟩
    | ok t =>
      have hnotviol : ¬ inlierInvariantViolated applyPose bestMode st pose i := by
        intro hv
        obtain ⟨e, he⟩ := (inlierEnergyTerm_error_iff neglog applyPose bestMode st pose i).mpr hv
        rw [ht] at he
        cases he
      cases hs : sumInlierEnergies neglog applyPose bestMode st pose rest with
      | error e =>
        simp only [List.mem_cons]
        constructor
        · intro _
          obtain ⟨j, hj, hjv⟩ := ih.mp ⟨e, hs⟩
          exact ⟨j, Or.inr hj, hjv⟩
        · intro _; exact ⟨e, rfl⟩
      | ok s =>
        simp only [List.mem_cons]
        constructor
        · rintro ⟨e, he⟩; cases he
        · rintro ⟨j, hj | hj, hjv⟩
          · rw [hj] at hjv; exact absurd hjv hnotviol
          · obtain ⟨e, he⟩ := ih.mpr ⟨j, hj, hjv⟩
            rw [he] at hs
            cases hs

theorem compute_pose_energy_error_iff {K Pose : Type} [LinearOrderedField K] (neglog : ℚ → K)
    (applyPose : Pose → Vec3 → Vec3) (bestMode : GPUForestPrediction → Vec3 → ℤ × ℚ)
    (st : RelocState) (pose : Pose) (inliers : List (ℕ × ℤ)) :
    (∃ e, compute_pose_energy neglog applyPose bestMode st pose inliers = Except.error e)
      ↔ ∃ i ∈ inliers, inlierInvariantViolated applyPose bestMode st pose i := by
  rw [← sumInlierEnergies_error_iff neglog applyPose bestMode st pose inliers]
  simp only [compute_pose_energy]
  cases hs : sumInlierEnergies neglog applyPose bestMode st pose inliers with
  | error e =>
    constructor
    · intro _; exact ⟨e, rfl⟩
    · intro _; exact ⟨e, rfl⟩
  | ok s =>
    constructor
    · rintro ⟨e, he⟩; cases he
    · rintro ⟨e, he⟩; cases he

theorem scoreCandidates_error_of_mem {K Pose : Type} [LinearOrderedField K] (neglog : ℚ → K)
    (applyPose : Pose → Vec3 → Vec3) (bestMode : GPUForestPrediction → Vec3 → ℤ × ℚ)
    (st : RelocState) : ∀ (cs : List (PoseCandidate K Pose)),
    (∃ c ∈ cs, ∃ e, compute_pose_energy neglog applyPose bestMode st c.cameraPose c.inliers
        = Except.error e) →
    ∃ e, scoreCandidates neglog applyPose bestMode st cs = Except.error e := by
  intro cs
  induction cs with
  | nil => rintro ⟨c, hc, _⟩; cases hc
  | cons c rest ih =>
    rintro ⟨d, hd, e, he⟩
    simp only [scoreCandidates]
    cases hc : compute_pose_energy neglog applyPose bestMode st c.cameraPose c.inliers with
    | error e2 => exact ⟨e2, rfl⟩
    | ok en =>
      rcases List.mem_cons.mp hd with hdc | hdr
      · rw [hdc] at he
        rw [he] at hc
        cases hc
      · obtain ⟨e3, he3⟩ := ih ⟨d, hdr, e, he⟩
        rw [he3]
        exact ⟨e3, rfl⟩

/-- C6: `compute_pose_energy` raises an error exactly when some inlier's
best-mode query yields a negative mode index or a matched mode with zero
supporting inliers; the intentionally disabled `update_candidate_pose` always
raises; and these errors are not caught inside the component — an erroring
candidate makes the whole scoring pass error, and an erroring scoring pass
makes the whole RANSAC loop error. -/
theorem invariant_violation_errors {K Pose : Type} [LinearOrderedField K]
    (neglog : ℚ → K) (applyPose : Pose → Vec3 → Vec3)
    (bestMode : GPUForestPrediction → Vec3 → ℤ × ℚ) (st : RelocState) :
    (∀ (pose : Pose) (inliers : List (ℕ × ℤ)),
      (∃ e, compute_pose_energy neglog applyPose bestMode st pose inliers = Except.error e)
        ↔ ∃ i ∈ inliers, inlierInvariantViolated applyPose bestMode st pose i)
    ∧ (∀ c : PoseCandidate K Pose, update_candidate_pose c = Except.error RelocError.notUpdatedYet)
    ∧ (∀ cs : List (PoseCandidate K Pose),
        (∃ c ∈ cs, ∃ e, compute_pose_energy neglog applyPose bestMode st c.cameraPose c.inliers
            = Except.error e) →
        ∃ e, compute_and_sort_energies neglog applyPose bestMode st cs = Except.error e)
    ∧ (∀ (cs : List (PoseCandidate K Pose)) (mask : ℕ → Bool) (eng : RandEng) (e : RelocError),
        1 < cs.length →
        compute_and_sort_energies neglog applyPose bestMode st
          (update_inliers_for_optimization st
            (sample_pixels_for_ransac st m_batchSizeRansac (some mask) eng).1 cs)
          = Except.error e →
        ransacLoop neglog applyPose bestMode st cs mask eng = Except.error e) := by
  refine ⟨compute_pose_energy_error_iff neglog applyPose bestMode st, fun _ => rfl, ?_, ?_⟩
  · intro cs hex
    obtain ⟨e, he⟩ := scoreCandidates_error_of_mem neglog applyPose bestMode st cs hex
    simp only [compute_and_sort_energies, he]
    exact ⟨e, rfl⟩
  · intro cs mask eng e hlen herr
    unfold ransacLoop
    rw [dif_pos hlen]
    simp only [m_poseUpdate, Bool.false_eq_true, if_false]
    rw [herr]

/-- Witness for C6 at concrete error fixtures: a candidate whose best-mode
query reports no valid mode makes the scoring pass error, and a two-candidate
RANSAC round propagates the error out of the loop. -/
theorem invariant_violation_errors_witness :
    (∃ e, compute_and_sort_energies neglogZero applyPoseU bestModeNone stE [cErrCand]
        = Except.error e)
    ∧ ransacLoop neglogZero applyPoseU bestModeNone stE [cErrCand, cErrCand]
        (fun _ => false) engZero = Except.error RelocError.noValidModes :=
  ⟨(invariant_violation_errors neglogZero applyPoseU bestModeNone stE).2.2.1 [cErrCand]
      ⟨cErrCand, List.mem_singleton.mpr rfl, RelocError.noValidModes, rfl⟩,
   (invariant_violation_errors neglogZero applyPoseU bestModeNone stE).2.2.2
      [cErrCand, cErrCand] (fun _ => false) engZero RelocError.noValidModes (by decide)
      (by with_unfolding_all rfl)⟩

theorem flooredEnergy_pos (e : ℚ) : 0 < flooredEnergy e := by
  simp only [flooredEnergy]
  split
  · norm_num
  · next h =>
    have h6 : (0 : ℚ) < 1 / 1000000 := by norm_num
    linarith [not_lt.mp h]

theorem neglog10_nonneg (q : ℚ) (h0 : 0 < q) (h1 : q ≤ 1) : 0 ≤ neglog10 q := by
  simp only [neglog10, neg_nonneg]
  refine Real.logb_nonpos (by norm_num) ?_ ?_
  · exact_mod_cast le_of_lt h0
  · exact_mod_cast h1

theorem sumInlierEnergies_ok_nonneg {Pose : Type} (applyPose : Pose → Vec3 → Vec3)
    (bestMode : GPUForestPrediction → Vec3 → ℤ × ℚ) (st : RelocState) (pose : Pose) :
    ∀ (inliers : List (ℕ × ℤ)) (s : ℝ),
    (∀ i ∈ inliers, flooredEnergy (inlierNormEnergy applyPose bestMode st pose i) ≤ 1) →
    sumInlierEnergies neglog10 applyPose bestMode st pose inliers = Except.ok s → 0 ≤ s := by
  intro inliers
  induction inliers with
  | nil =>
    intro s _ h
    simp only [sumInlierEnergies, Except.ok.injEq] at h
    rw [← h]
  | cons i rest ih =>
    intro s hle h
    simp only [sumInlierEnergies] at h
    cases ht : inlierEnergyTerm neglog10 applyPose bestMode st pose i with
    | error e => rw [ht] at h; cases h
    | ok t =>
      rw [ht] at h
      cases hs : sumInlierEnergies neglog10 applyPose bestMode st pose rest with
      | error e => rw [hs] at h; cases h
      | ok s2 =>
        rw [hs] at h
        simp only [Except.ok.injEq] at h
        have h1 : 0 ≤ t := by
          rw [inlierEnergyTerm_ok neglog10 applyPose bestMode st pose i t ht]
          exact neglog10_nonneg _ (flooredEnergy_pos _) (hle i (List.mem_cons_self i rest))
        have h2 : 0 ≤ s2 := ih s2 (fun j hj => hle j (List.mem_cons_of_mem i hj)) hs
        rw [← h]
        exact add_nonneg h1 h2

/-- C3 (amended): whenever no inlier's floored normalised mode energy exceeds
1, `compute_pose_energy` returns a non-negative value; an inlier whose
normalised mode energy is exactly 1.0 contributes `-log10 1 = 0` to the
accumulated sum, and an inlier whose normalised energy falls at (or below)
the `1e-6` floor contributes exactly 6 before the average over the inlier
count. (Without the boundedness hypothesis the result can be negative: see
the counterexample, where a normalised energy above 1 yields a negative
logarithm.) -/
theorem compute_pose_energy_nonneg {Pose : Type} (applyPose : Pose → Vec3 → Vec3)
    (bestMode : GPUForestPrediction → Vec3 → ℤ × ℚ) (st : RelocState) :
    (∀ (pose : Pose) (inliers : List (ℕ × ℤ)) (r : ℝ),
      inliers ≠ [] →
      (∀ i ∈ inliers, flooredEnergy (inlierNormEnergy applyPose bestMode st pose i) ≤ 1) →
      compute_pose_energy neglog10 applyPose bestMode st pose inliers = Except.ok r →
      0 ≤ r)
    ∧ (∀ e : ℚ, e = 1 → neglog10 (flooredEnergy e) = 0)
    ∧ (∀ e : ℚ, e ≤ 1 / 1000000 → neglog10 (flooredEnergy e) = 6) := by
  refine ⟨?_, ?_, ?_⟩
  · intro pose inliers r _ hle h
    simp only [compute_pose_energy] at h
    cases hs : sumInlierEnergies neglog10 applyPose bestMode st pose inliers with
    | error e => rw [hs] at h; cases h
    | ok total =>
      rw [hs] at h
      simp only [Except.ok.injEq] at h
      rw [← h]
      have htotal : 0 ≤ total :=
        sumInlierEnergies_ok_nonneg applyPose bestMode st pose inliers total hle hs
      exact div_nonneg htotal (Nat.cast_nonneg _)
  · intro e he
    subst he
    have hfe : flooredEnergy 1 = 1 := by
      simp only [flooredEnergy]
      rw [if_neg (by norm_num)]
    rw [hfe]
    simp [neglog10, Real.logb_one]
  · intro e he
    have hfe : flooredEnergy e = 1 / 1000000 := by
      simp only [flooredEnergy]
      split
      · rfl
      · next hlt => exact le_antisymm he (not_lt.mp hlt)
    rw [hfe]
    simp only [neglog10]
    have hcast : (((1 : ℚ) / 1000000 : ℚ) : ℝ) = (10 : ℝ) ^ (-6 : ℤ) := by
      push_cast
      norm_num [zpow_neg]
    rw [hcast]
    have hlog : Real.log 10 ≠ 0 := ne_of_gt (Real.log_pos (by norm_num))
    simp only [Real.logb, Real.log_zpow]
    field_simp

/-- Counterexample to C3 as stated: a backend query reporting raw mode energy
10 for a one-mode prediction with a one-inlier mode gives normalised energy
10, whose contribution `-log10 10 = -1` makes `compute_pose_energy` return
the negative value -1 on a non-empty inlier list without raising an error. -/
theorem compute_pose_energy_negative_counterexample :
    compute_pose_energy neglog10 applyPoseU bestModeTen stE () [(0, 0)] = Except.ok (-1 : ℝ)
    ∧ (-1 : ℝ) < 0 := by
  refine ⟨?_, by norm_num⟩
  have hterm : inlierEnergyTerm neglog10 applyPoseU bestModeTen stE () ((0 : ℕ), (0 : ℤ))
      = Except.ok (neglog10 10) := by
    simp only [inlierEnergyTerm]
    rw [if_neg (by decide), if_neg (by decide)]
    congr 1
    have hnorm : normalisedModeEnergy (stE.predictions 0)
        (Int.toNat (bestModeTen (stE.predictions 0) (applyPoseU () (featPos3at stE 0))).1)
        (bestModeTen (stE.predictions 0) (applyPoseU () (featPos3at stE 0))).2 = 10 := by
      norm_num [normalisedModeEnergy, getMode, stE, bestModeTen]
    rw [hnorm]
    congr 1
    simp only [flooredEnergy]
    rw [if_neg (by norm_num)]
  simp only [compute_pose_energy, sumInlierEnergies, hterm]
  have h10 : neglog10 10 = -1 := by
    simp only [neglog10]
    rw [show (((10 : ℚ)) : ℝ) = (10 : ℝ) by norm_num]
    rw [Real.logb_self_eq_one (by norm_num)]
  rw [h10]
  norm_num

/-- Witness for the amended C3: with raw mode energy 1, the normalised energy
is exactly 1 and the returned average is `(-log10 1 + 0) / 1`; the theorem
yields its non-negativity and the two exact contribution values. -/
theorem compute_pose_energy_nonneg_witness :
    ((0 : ℝ) ≤ (neglog10 (flooredEnergy (inlierNormEnergy applyPoseU bestModeOne stE () (0, 0)))
        + 0) / ((1 : ℕ) : ℝ))
    ∧ neglog10 (flooredEnergy 1) = 0
    ∧ neglog10 (flooredEnergy (1 / 1000000)) = 6 :=
  ⟨(compute_pose_energy_nonneg applyPoseU bestModeOne stE).1 () [(0, 0)] _ (by decide)
      (by with_unfolding_all decide) rfl,
   (compute_pose_energy_nonneg applyPoseU bestModeOne stE).2.1 1 rfl,
   (compute_pose_energy_nonneg applyPoseU bestModeOne stE).2.2 (1 / 1000000) (le_refl _)⟩

/-! ### Theorems for claim C9 (RANSAC loop termination) -/

theorem scoreCandidates_ok_length {K Pose : Type} [LinearOrderedField K] (neglog : ℚ → K)
    (applyPose : Pose → Vec3 → Vec3) (bestMode : GPUForestPrediction → Vec3 → ℤ × ℚ)
    (st : RelocState) : ∀ (cs rs : List (PoseCandidate K Pose)),
    scoreCandidates neglog applyPose bestMode st cs = Except.ok rs → rs.length = cs.length := by
  intro cs
  induction cs with
  | nil =>
    intro rs h
    simp only [scoreCandidates, Except.ok.injEq] at h
    rw [← h]
  | cons c rest ih =>
    intro rs h
    simp only [scoreCandidates] at h
    cases hc : compute_pose_energy neglog applyPose bestMode st c.cameraPose c.inliers with
    | error e => rw [hc] at h; cases h
    | ok en =>
      rw [hc] at h
      cases hr : scoreCandidates neglog applyPose bestMode st rest with
      | error e => rw [hr] at h; cases h
      | ok rest2 =>
        rw [hr] at h
        simp only [Except.ok.injEq] at h
        rw [← h]
        simp [ih rest2 hr]

theorem compute_and_sort_ok_length {K Pose : Type} [LinearOrderedField K] (neglog : ℚ → K)
    (applyPose : Pose → Vec3 → Vec3) (bestMode : GPUForestPrediction → Vec3 → ℤ × ℚ)
    (st : RelocState) (cs rs : List (PoseCandidate K Pose))
    (h : compute_and_sort_energies neglog applyPose bestMode st cs = Except.ok rs) :
    rs.length = cs.length := by
  simp only [compute_and_sort_energies] at h
  cases hs : scoreCandidates neglog applyPose bestMode st cs with
  | error e => rw [hs] at h; cases h
  | ok scored =>
    rw [hs] at h
    simp only [Except.ok.injEq] at h
    rw [← h, List.length_insertionSort]
    exact scoreCandidates_ok_length neglog applyPose bestMode st cs scored hs

theorem update_inliers_length {K Pose : Type} (st : RelocState) (sampled : List (ℕ × ℕ))
    (cs : List (PoseCandidate K Pose)) :
    (update_inliers_for_optimization st sampled cs).length = cs.length := by
  simp [update_inliers_for_optimization]

theorem ransacLoop_result {K Pose : Type} [LinearOrderedField K] (neglog : ℚ → K)
    (applyPose : Pose → Vec3 → Vec3) (bestMode : GPUForestPrediction → Vec3 → ℤ × ℚ)
    (st : RelocState) : ∀ (n : ℕ) (cs : List (PoseCandidate K Pose)) (mask : ℕ → Bool)
    (eng : RandEng) (res : List (PoseCandidate K Pose)), cs.length = n →
    ransacLoop neglog applyPose bestMode st cs mask eng = Except.ok res →
    res.length ≤ 1 ∧ (res = [] ↔ cs = []) := by
  intro n
  induction n using Nat.strong_induction_on with
  | _ n ih =>
    intro cs mask eng res hlen h
    unfold ransacLoop at h
    split at h
    · next hgt =>
      simp only [m_poseUpdate, Bool.false_eq_true, if_false] at h
      cases hcs : compute_and_sort_energies neglog applyPose bestMode st
          (update_inliers_for_optimization st
            (sample_pixels_for_ransac st m_batchSizeRansac (some mask) eng).1 cs) with
      | error e => rw [hcs] at h; cases h
      | ok cs2 =>
        rw [hcs] at h
        have hlen2 : cs2.length = cs.length := by
          rw [compute_and_sort_ok_length neglog applyPose bestMode st _ cs2 hcs,
            update_inliers_length]
        have htake : (cs2.take (cs.length / 2)).length = cs.length / 2 := by
          rw [List.length_take, hlen2]
          omega
        have hrec := ih (cs.length / 2) (by omega) _ _ _ res htake h
        refine ⟨hrec.1, ?_⟩
        have hne2 : cs2.take (cs.length / 2) ≠ [] := by
          intro hx
          rw [hx] at htake
          simp only [List.length_nil] at htake
          omega
        have hne : cs ≠ [] := by
          intro hx
          rw [hx] at hgt
          simp at hgt
        exact iff_of_false (fun hres => hne2 (hrec.2.mp hres)) hne
    · next hle =>
      simp only [Except.ok.injEq] at h
      subst h
      constructor
      · omega
      · exact Iff.rfl

theorem trimCandidates_ok_iff {K Pose : Type} [LinearOrderedField K] (neglog : ℚ → K)
    (applyPose : Pose → Vec3 → Vec3) (bestMode : GPUForestPrediction → Vec3 → ℤ × ℚ)
    (st : RelocState) (candidates : List (PoseCandidate K Pose)) (eng : RandEng)
    (pr : List (PoseCandidate K Pose) × RandEng)
    (h : trimCandidates neglog applyPose bestMode st candidates eng = Except.ok pr) :
    pr.1 = [] ↔ candidates = [] := by
  simp only [trimCandidates] at h
  split at h
  · next htrim =>
    cases hcs : compute_and_sort_energies neglog applyPose bestMode st
        (update_inliers_for_optimization st
          (sample_pixels_for_ransac st m_batchSizeRansac none eng).1 candidates) with
    | error e =>
      simp only [hcs] at h
      exact Except.noConfusion h
    | ok cs2 =>
      simp only [hcs, Except.ok.injEq] at h
      have hlen2 : cs2.length = candidates.length := by
        rw [compute_and_sort_ok_length neglog applyPose bestMode st _ cs2 hcs,
          update_inliers_length]
      have hlen3 : (cs2.take m_trimKinitAfterFirstEnergyComputation).length
          = m_trimKinitAfterFirstEnergyComputation := by
        rw [List.length_take, hlen2]
        omega
      have hne : pr.1 ≠ [] := by
        rw [← h]
        split
        · intro hx
          rw [← List.length_eq_zero, List.length_map, hlen3] at hx
          simp [m_trimKinitAfterFirstEnergyComputation] at hx
        · intro hx
          rw [← List.length_eq_zero, hlen3] at hx
          simp [m_trimKinitAfterFirstEnergyComputation] at hx
      have hcne : candidates ≠ [] := by
        intro hx
        rw [hx] at htrim
        simp at htrim
      exact iff_of_false hne hcne
  · next htrim =>
    simp only [Except.ok.injEq] at h
    rw [← h]

theorem estimate_pose_some_iff {K Pose : Type} [LinearOrderedField K] (neglog : ℚ → K)
    (applyPose : Pose → Vec3 → Vec3) (bestMode : GPUForestPrediction → Vec3 → ℤ × ℚ)
    (st : RelocState) (candidates : List (PoseCandidate K Pose)) (eng : RandEng)
    (r : Option (PoseCandidate K Pose))
    (h : estimate_pose neglog applyPose bestMode st candidates eng = Except.ok r) :
    r.isSome ↔ candidates ≠ [] := by
  simp only [estimate_pose] at h
  cases htc : trimCandidates neglog applyPose bestMode st candidates eng with
  | error e =>
    simp only [htc] at h
    exact Except.noConfusion h
  | ok pr =>
    simp only [htc] at h
    cases hloop : ransacLoop neglog applyPose bestMode st pr.1 (fun _ => false) pr.2 with
    | error e =>
      simp only [hloop] at h
      exact Except.noConfusion h
    | ok finalCs =>
      simp only [hloop, Except.ok.injEq] at h
      subst h
      have hres := ransacLoop_result neglog applyPose bestMode st pr.1.length pr.1
        (fun _ => false) pr.2 finalCs rfl hloop
      have hiff := trimCandidates_ok_iff neglog applyPose bestMode st candidates eng pr htc
      rw [List.head?_isSome]
      exact not_congr (hres.2.trans hiff)

/-- C9: the main RANSAC loop of `estimate_pose` terminates with at most one
surviving candidate — any successful run's result has length at most 1, and
each round with `n > 1` survivors keeps exactly the `⌊n/2⌋` first (sorted,
lowest-energy) candidates, a strictly smaller count — and `estimate_pose`
returns a candidate exactly when the initial candidate list was non-empty. -/
theorem ransac_halves_and_terminates {K Pose : Type} [LinearOrderedField K] (neglog : ℚ → K)
    (applyPose : Pose → Vec3 → Vec3) (bestMode : GPUForestPrediction → Vec3 → ℤ × ℚ)
    (st : RelocState) :
    (∀ (cs : List (PoseCandidate K Pose)) (mask : ℕ → Bool) (eng : RandEng) res,
      ransacLoop neglog applyPose bestMode st cs mask eng = Except.ok res →
      res.length ≤ 1 ∧ (res = [] ↔ cs = []))
    ∧ (∀ (cs cs2 : List (PoseCandidate K Pose)) (mask : ℕ → Bool) (eng : RandEng),
        1 < cs.length →
        compute_and_sort_energies neglog applyPose bestMode st
          (update_inliers_for_optimization st
            (sample_pixels_for_ransac st m_batchSizeRansac (some mask) eng).1 cs)
          = Except.ok cs2 →
        (cs2.take (cs.length / 2)).length = cs.length / 2 ∧ cs.length / 2 < cs.length)
    ∧ (∀ (candidates : List (PoseCandidate K Pose)) (eng : RandEng) r,
        estimate_pose neglog applyPose bestMode st candidates eng = Except.ok r →
        (r.isSome ↔ candidates ≠ [])) := by
  refine ⟨?_, ?_, estimate_pose_some_iff neglog applyPose bestMode st⟩
  · intro cs mask eng res h
    exact ransacLoop_result neglog applyPose bestMode st cs.length cs mask eng res rfl h
  · intro cs cs2 mask eng hgt hcs
    have hlen2 : cs2.length = cs.length := by
      rw [compute_and_sort_ok_length neglog applyPose bestMode st _ cs2 hcs,
        update_inliers_length]
    constructor
    · rw [List.length_take, hlen2]
      omega
    · omega

/-- Witness for C9: a two-candidate round on the 1×1 state halves to one
candidate, and `estimate_pose` on an empty initial list returns no candidate. -/
theorem ransac_halves_and_terminates_witness :
    ((([cWit, cWit] : List (PoseCandidate ℚ Unit)).take
        (([cErrCand, cErrCand] : List (PoseCandidate ℚ Unit)).length / 2)).length
      = ([cErrCand, cErrCand] : List (PoseCandidate ℚ Unit)).length / 2
      ∧ ([cErrCand, cErrCand] : List (PoseCandidate ℚ Unit)).length / 2
        < ([cErrCand, cErrCand] : List (PoseCandidate ℚ Unit)).length)
    ∧ ((none : Option (PoseCandidate ℚ Unit)).isSome
        ↔ ([] : List (PoseCandidate ℚ Unit)) ≠ []) :=
  ⟨(ransac_halves_and_terminates neglogZero applyPoseU bestModeOne stE).2.1
      [cErrCand, cErrCand] [cWit, cWit] (fun _ => false) engZero (by decide)
      (by with_unfolding_all rfl),
   (ransac_halves_and_terminates neglogZero applyPoseU bestModeOne stE).2.2
      [] engZero none (by
        simp only [estimate_pose,
          show trimCandidates neglogZero applyPoseU bestModeOne stE [] engZero
            = Except.ok ([], engZero) from rfl]
        unfold ransacLoop
        simp)⟩
